import Mathlib

/-!
# Verification of the oxigraph term-encoding, storage and update core

Shallow embedding of the parts of the repository relevant to the frozen
claims:

* `src/lib/src/storage/numeric_encoder.rs` — `StrHash`, `EncodedTerm`,
  its custom `PartialEq`/`Hash`, literal encoding (`From<LiteralRef>`),
  `insert_term_values`, the `parse_*_str` helpers and `decode_term`;
* `src/lib/src/sparql/update.rs` — the `SimpleUpdateEvaluator`
  (DELETE/INSERT WHERE template instantiation, CREATE/DROP);
* `src/lib/src/storage/backend/rocksdb.rs` — `Reader::scan_prefix`
  and the transaction life cycle;
* `src/lib/src/model/sophia.rs` — the `TTerm` trait surface.

Modelling conventions:

* The 128-bit SipHash-2-4 string hash is modelled content-addressed: the
  hash *is* the hashed string (`StrHash := String`).  The specification
  (§3) stipulates that collisions are "extraordinarily unlikely" and adds
  no disambiguation layer, so the embedding treats hashing as injective.
* Machine floating point values are represented by their bit patterns
  (`Nat` below `2^32`/`2^64`); IEEE 754 equality and NaN detection are
  defined on the bit patterns.
* Code that panics or is fallible returns `Option`/`Except`.
* Rust functions from `std` used by the sources (`str::parse` for
  `i64`/`f32`/`f64`) are modelled after the documented `FromStr`
  grammars ("inf" / "infinity" / "nan" are matched case-insensitively,
  as in every Rust release since 1.55).
-/

namespace Oxigraph

/-! ## String hashes and small strings -/

/-- `StrHash` (numeric_encoder.rs 17-43): 128-bit SipHash-2-4 of the UTF-8
bytes of a string.  Modelled content-addressed: the hash of `s` is `s`
itself, which encodes the spec §3 assumption that collisions do not
occur. -/
abbrev StrHash := String

/-- `StrHash::new` under the content-addressed model. -/
def strHashNew (s : String) : StrHash := s

/-- `SmallString::try_from` (storage/small_string.rs, an inline buffer of
at most 16 UTF-8 bytes per spec §3/§6): succeeds exactly when the string
fits in 16 bytes. -/
def smallStringTryFrom (s : String) : Option String :=
  if s.utf8ByteSize ≤ 16 then some s else none

/-! ## Floating point bit patterns -/

/-- An `f64` value, represented by its 64-bit pattern. -/
structure F64 where
  bits : Nat
  deriving DecidableEq, Repr

/-- An `f32` value, represented by its 32-bit pattern. -/
structure F32 where
  bits : Nat
  deriving DecidableEq, Repr

/-- `f64::is_nan`: exponent field all ones and non-zero mantissa. -/
def F64.isNan (x : F64) : Bool :=
  (x.bits / 2 ^ 52) % 2 ^ 11 == 2047 && x.bits % 2 ^ 52 != 0

/-- An `f64` is (positively or negatively signed) zero. -/
def F64.isZero (x : F64) : Bool :=
  x.bits == 0 || x.bits == 2 ^ 63

/-- IEEE 754 equality on `f64` (the semantics of Rust `==` on `f64`):
NaN compares unequal to everything, `+0.0 == -0.0`, and any other pair
of values is equal exactly when the bit patterns coincide. -/
def f64IeeeEq (a b : F64) : Bool :=
  !a.isNan && !b.isNan && (a.bits == b.bits || (a.isZero && b.isZero))

/-- `f32::is_nan`: exponent field all ones and non-zero mantissa. -/
def F32.isNan (x : F32) : Bool :=
  (x.bits / 2 ^ 23) % 2 ^ 8 == 255 && x.bits % 2 ^ 23 != 0

/-- An `f32` is (positively or negatively signed) zero. -/
def F32.isZero (x : F32) : Bool :=
  x.bits == 0 || x.bits == 2 ^ 31

/-- IEEE 754 equality on `f32` (the semantics of Rust `==` on `f32`). -/
def f32IeeeEq (a b : F32) : Bool :=
  !a.isNan && !b.isNan && (a.bits == b.bits || (a.isZero && b.isZero))

/-- The bit pattern of Rust's `f64::NAN` (the canonical quiet NaN). -/
def f64NanBits : Nat := 0x7ff8000000000000

/-- The bit pattern of Rust's `f32::NAN` (the canonical quiet NaN). -/
def f32NanBits : Nat := 0x7fc00000

/-! ## Rust `str::parse` models

`parse_boolean_str` .. `parse_double_str` in numeric_encoder.rs call
`str::parse` for `bool`-like matching, `i64`, `f32` and `f64`.  The
integer and float grammars below follow the documented `FromStr`
implementations of Rust `std`. -/

/-- Decimal digits to the number they denote. -/
def digitsToNat (ds : List Char) : Nat :=
  ds.foldl (fun a c => a * 10 + (c.toNat - 48)) 0

/-- Split a character list at the first `.`, if any. -/
def splitOnDot : List Char → List Char × Option (List Char)
  | [] => ([], none)
  | c :: cs =>
    if c = '.' then ([], some cs)
    else
      let (a, b) := splitOnDot cs
      (c :: a, b)

/-- Split a character list at the first `e`/`E`, if any. -/
def splitOnExp : List Char → List Char × Option (List Char)
  | [] => ([], none)
  | c :: cs =>
    if c = 'e' ∨ c = 'E' then ([], some cs)
    else
      let (a, b) := splitOnExp cs
      (c :: a, b)

/-- Strip one leading sign character, reporting whether it was `-`. -/
def stripSign : List Char → Bool × List Char
  | '+' :: r => (false, r)
  | '-' :: r => (true, r)
  | r => (false, r)

/-- Rust `i64::from_str`: an optional sign followed by one or more ASCII
digits, within the `i64` range. -/
def rustParseI64 (s : String) : Option Int :=
  let (neg, rest) := stripSign s.data
  if rest.isEmpty || !rest.all Char.isDigit then none
  else
    let n := digitsToNat rest
    if neg then
      if n ≤ 2 ^ 63 then some (-(n : Int)) else none
    else
      if n < 2 ^ 63 then some (n : Int) else none

/-- The exponent of a float literal: an optional sign followed by one or
more digits. -/
def parseExpDigits (cs : List Char) : Option Int :=
  let (neg, rest) := stripSign cs
  if rest.isEmpty || !rest.all Char.isDigit then none
  else
    let n := digitsToNat rest
    some (if neg then -(n : Int) else (n : Int))

/-- Outcome of the shared front end of Rust's float `FromStr`. -/
inductive FloatParse where
  | nan
  | inf
  | finite (mantissa : Nat) (exp10 : Int)
  deriving DecidableEq, Repr

/-- The grammar of Rust's `FromStr` for `f32`/`f64`: an optional sign,
then either one of the special values `inf`, `infinity`, `nan` (matched
case-insensitively) or a decimal significand (digits with at most one
point, at least one digit) with an optional `e`/`E` exponent. -/
def rustParseFloatRaw (s : String) : Option (Bool × FloatParse) :=
  if s.data.isEmpty then none
  else
    let (neg, rest) := stripSign s.data
    let lower := rest.map Char.toLower
    if lower = "inf".data ∨ lower = "infinity".data then some (neg, .inf)
    else if lower = "nan".data then some (neg, .nan)
    else
      let (mant, expPart) := splitOnExp rest
      let (ip, fpOpt) := splitOnDot mant
      let fp := fpOpt.getD []
      if !ip.all Char.isDigit || !fp.all Char.isDigit || (ip.isEmpty && fp.isEmpty) then
        none
      else
        match expPart with
        | none => some (neg, .finite (digitsToNat (ip ++ fp)) (-(fp.length : Int)))
        | some e =>
          match parseExpDigits e with
          | none => none
          | some ex => some (neg, .finite (digitsToNat (ip ++ fp)) (ex - fp.length))

/-- Round `x / 2^k` to the nearest integer, ties to even. -/
def roundHalfEven (x k : Nat) : Nat :=
  let q := x / 2 ^ k
  let r := x % 2 ^ k
  if 2 * r > 2 ^ k then q + 1
  else if 2 * r < 2 ^ k then q
  else if q % 2 = 0 then q else q + 1

/-- Convert a finite decimal `(-1)^neg * m * 10^e10` to an IEEE 754 bit
pattern with `mantBits` mantissa bits and `expBits` exponent bits, by
binary rounding (round to nearest, ties to even) of the exact rational
value computed to `mantBits + 66` guard bits.  At this precision a tie
sitting exactly on a rounding boundary could in principle be resolved
differently from the exact IEEE result in the last ulp; no theorem in
this development depends on the finite values. -/
def fpBitsOfDecimal (mantBits expBits : Nat) (neg : Bool) (m : Nat) (e10 : Int) : Nat :=
  let signBit := if neg then 2 ^ (mantBits + expBits) else 0
  if m = 0 then signBit
  else
    let a := if 0 ≤ e10 then m * 10 ^ e10.toNat else m
    let b := if 0 ≤ e10 then 1 else 10 ^ (-e10).toNat
    let bias : Int := 2 ^ (expBits - 1) - 1
    let P := Nat.log2 b + mantBits + 66
    let t := a * 2 ^ P / b
    let L := Nat.log2 t
    let be : Int := (L : Int) - P + bias
    let infBits := signBit + (2 ^ expBits - 1) * 2 ^ mantBits
    if 2 ^ expBits - 1 ≤ be then infBits
    else if 1 ≤ be then
      let sig := roundHalfEven t (L - mantBits)
      if sig = 2 ^ (mantBits + 1) then
        if 2 ^ expBits - 1 ≤ be + 1 then infBits
        else signBit + (be + 1).toNat * 2 ^ mantBits
      else signBit + be.toNat * 2 ^ mantBits + (sig - 2 ^ mantBits)
    else
      let sig := roundHalfEven t ((L : Int) - mantBits + (1 - be)).toNat
      if 2 ^ mantBits ≤ sig then signBit + 2 ^ mantBits + (sig - 2 ^ mantBits)
      else signBit + sig

/-- Assemble the `f64` a Rust float parse denotes. -/
def f64OfParse : Bool × FloatParse → F64
  | (neg, .nan) => ⟨f64NanBits + if neg then 2 ^ 63 else 0⟩
  | (neg, .inf) => ⟨(2 ^ 11 - 1) * 2 ^ 52 + if neg then 2 ^ 63 else 0⟩
  | (neg, .finite m e) => ⟨fpBitsOfDecimal 52 11 neg m e⟩

/-- Assemble the `f32` a Rust float parse denotes. -/
def f32OfParse : Bool × FloatParse → F32
  | (neg, .nan) => ⟨f32NanBits + if neg then 2 ^ 31 else 0⟩
  | (neg, .inf) => ⟨(2 ^ 8 - 1) * 2 ^ 23 + if neg then 2 ^ 31 else 0⟩
  | (neg, .finite m e) => ⟨fpBitsOfDecimal 23 8 neg m e⟩

/-- Rust `f64::from_str`. -/
def rustParseF64 (s : String) : Option F64 :=
  (rustParseFloatRaw s).map f64OfParse

/-- Rust `f32::from_str`. -/
def rustParseF32 (s : String) : Option F32 :=
  (rustParseFloatRaw s).map f32OfParse

/-! ## XSD value types missing from `src/`

`model/xsd` (`Decimal`, `DateTime`, `Duration`, …) is not part of the
sampled sources; only their use in numeric_encoder.rs is.  They are
modelled from the spec below. -/

/-- Modelled from the spec: `xsd:decimal`'s native value (`model/xsd` is
not under `src/`).  Spec §3 prescribes a fixed-size native payload;
modelled as a 128-bit integer scaled by `10^18`.  The parse accepts
`sign? digits* ('.' digits*)?` with at least one digit, at most 18
fractional digits, and a value fitting the scaled `i128` range. -/
structure DecimalV where
  scaled : Int
  deriving DecidableEq, Repr

/-- Parse of the spec-modelled `xsd:decimal` lexical form. -/
def rustParseDecimal (s : String) : Option DecimalV :=
  let (neg, rest) := stripSign s.data
  let (ip, fpOpt) := splitOnDot rest
  let fp := fpOpt.getD []
  if !ip.all Char.isDigit || !fp.all Char.isDigit || (ip.isEmpty && fp.isEmpty)
      || 18 < fp.length then
    none
  else
    let n : Nat := digitsToNat ip * 10 ^ 18 + digitsToNat fp * 10 ^ (18 - fp.length)
    if n < 2 ^ 127 then some ⟨if neg then -(n : Int) else (n : Int)⟩ else none

/-- Leading run of digits and the rest. -/
def takeDigits : List Char → List Char × List Char
  | [] => ([], [])
  | c :: cs =>
    if c.isDigit then
      let (d, r) := takeDigits cs
      (c :: d, r)
    else ([], c :: cs)

/-- An XSD timezone tail: empty, `Z`, or `±hh:mm`. -/
def tzTailOk : List Char → Bool
  | [] => true
  | ['Z'] => true
  | c :: cs =>
    (c == '+' || c == '-') &&
      match cs with
      | [h1, h2, ':', m1, m2] => h1.isDigit && h2.isDigit && m1.isDigit && m2.isDigit
      | _ => false

/-- Consume `yyyy-mm-dd` (year of at least four digits); returns whether
it matched and the remaining characters. -/
def dateBodyOk (cs : List Char) : Bool × List Char :=
  let (y, r1) := takeDigits cs
  if y.length < 4 then (false, r1)
  else
    match r1 with
    | '-' :: m1 :: m2 :: '-' :: d1 :: d2 :: rest =>
      (m1.isDigit && m2.isDigit && d1.isDigit && d2.isDigit, rest)
    | _ => (false, [])

/-- Consume `hh:mm:ss` with an optional fractional part. -/
def timeBodyOk : List Char → Bool × List Char
  | h1 :: h2 :: ':' :: m1 :: m2 :: ':' :: s1 :: s2 :: rest =>
    let ok := h1.isDigit && h2.isDigit && m1.isDigit && m2.isDigit && s1.isDigit && s2.isDigit
    (match rest with
     | '.' :: r =>
       let (f, r2) := takeDigits r
       (ok && !f.isEmpty, r2)
     | r => (ok, r))
  | _ => (false, [])

/-- Strip an optional leading `-` (negative year). -/
def stripNegYear : List Char → List Char
  | '-' :: r => r
  | r => r

/-- Lexical check for `xsd:date` (permissive: no range checks). -/
def dateLexOk (s : String) : Bool :=
  let (ok, rest) := dateBodyOk (stripNegYear s.data)
  ok && tzTailOk rest

/-- Lexical check for `xsd:dateTime` (permissive: no range checks). -/
def dateTimeLexOk (s : String) : Bool :=
  let (ok1, r1) := dateBodyOk (stripNegYear s.data)
  ok1 &&
    match r1 with
    | 'T' :: r2 =>
      let (ok2, r3) := timeBodyOk r2
      ok2 && tzTailOk r3
    | _ => false

/-- Lexical check for `xsd:time`. -/
def timeLexOk (s : String) : Bool :=
  let (ok, rest) := timeBodyOk s.data
  ok && tzTailOk rest

/-- Lexical check for `xsd:gYearMonth`. -/
def gYearMonthLexOk (s : String) : Bool :=
  let (y, r1) := takeDigits (stripNegYear s.data)
  4 ≤ y.length &&
    match r1 with
    | '-' :: m1 :: m2 :: rest => m1.isDigit && m2.isDigit && tzTailOk rest
    | _ => false

/-- Lexical check for `xsd:gYear`. -/
def gYearLexOk (s : String) : Bool :=
  let (y, r1) := takeDigits (stripNegYear s.data)
  4 ≤ y.length && tzTailOk r1

/-- Lexical check for `xsd:gMonthDay` (`--mm-dd`). -/
def gMonthDayLexOk (s : String) : Bool :=
  match s.data with
  | '-' :: '-' :: m1 :: m2 :: '-' :: d1 :: d2 :: rest =>
    m1.isDigit && m2.isDigit && d1.isDigit && d2.isDigit && tzTailOk rest
  | _ => false

/-- Lexical check for `xsd:gDay` (`---dd`). -/
def gDayLexOk (s : String) : Bool :=
  match s.data with
  | '-' :: '-' :: '-' :: d1 :: d2 :: rest => d1.isDigit && d2.isDigit && tzTailOk rest
  | _ => false

/-- Lexical check for `xsd:gMonth` (`--mm`). -/
def gMonthLexOk (s : String) : Bool :=
  match s.data with
  | '-' :: '-' :: m1 :: m2 :: rest => m1.isDigit && m2.isDigit && tzTailOk rest
  | _ => false

/-- Permissive body check shared by the duration lexical forms. -/
def durationTailOk (allowed : List Char) : List Char → Bool
  | 'P' :: rest => !rest.isEmpty && rest.all fun c => c.isDigit || allowed.contains c
  | _ => false

/-- Lexical check for `xsd:duration` (permissive). -/
def durationLexOk (s : String) : Bool :=
  durationTailOk ['Y', 'M', 'D', 'T', 'H', 'S', '.'] (stripNegYear s.data)

/-- Lexical check for `xsd:yearMonthDuration` (permissive). -/
def yearMonthDurationLexOk (s : String) : Bool :=
  durationTailOk ['Y', 'M'] (stripNegYear s.data)

/-- Lexical check for `xsd:dayTimeDuration` (permissive). -/
def dayTimeDurationLexOk (s : String) : Bool :=
  durationTailOk ['D', 'T', 'H', 'S', '.'] (stripNegYear s.data)

/-- Modelled from the spec: `xsd:dateTime` native value — a "fixed
struct" (§3).  `model/xsd` is not under `src/`; the value is modelled by
its accepted lexical form, and `is_identical_with` as equality of that
form. -/
structure DateTimeV where
  lex : String
  deriving DecidableEq, Repr

/-- Modelled from the spec: `xsd:time` native value, see `DateTimeV`. -/
structure TimeV where
  lex : String
  deriving DecidableEq, Repr

/-- Modelled from the spec: `xsd:date` native value, see `DateTimeV`. -/
structure DateV where
  lex : String
  deriving DecidableEq, Repr

/-- Modelled from the spec: `xsd:gYearMonth` native value, see `DateTimeV`. -/
structure GYearMonthV where
  lex : String
  deriving DecidableEq, Repr

/-- Modelled from the spec: `xsd:gYear` native value, see `DateTimeV`. -/
structure GYearV where
  lex : String
  deriving DecidableEq, Repr

/-- Modelled from the spec: `xsd:gMonthDay` native value, see `DateTimeV`. -/
structure GMonthDayV where
  lex : String
  deriving DecidableEq, Repr

/-- Modelled from the spec: `xsd:gDay` native value, see `DateTimeV`. -/
structure GDayV where
  lex : String
  deriving DecidableEq, Repr

/-- Modelled from the spec: `xsd:gMonth` native value, see `DateTimeV`. -/
structure GMonthV where
  lex : String
  deriving DecidableEq, Repr

/-- Modelled from the spec: `xsd:duration` native value, see `DateTimeV`. -/
structure DurationV where
  lex : String
  deriving DecidableEq, Repr

/-- Modelled from the spec: `xsd:yearMonthDuration` native value, see
`DateTimeV`. -/
structure YearMonthDurationV where
  lex : String
  deriving DecidableEq, Repr

/-- Modelled from the spec: `xsd:dayTimeDuration` native value, see
`DateTimeV`. -/
structure DayTimeDurationV where
  lex : String
  deriving DecidableEq, Repr

/-! ## Datatype IRIs -/

def rdfLangString : String := "http://www.w3.org/1999/02/22-rdf-syntax-ns#langString"
def xsdString : String := "http://www.w3.org/2001/XMLSchema#string"
def xsdBoolean : String := "http://www.w3.org/2001/XMLSchema#boolean"
def xsdFloat : String := "http://www.w3.org/2001/XMLSchema#float"
def xsdDouble : String := "http://www.w3.org/2001/XMLSchema#double"
def xsdInteger : String := "http://www.w3.org/2001/XMLSchema#integer"
def xsdDecimal : String := "http://www.w3.org/2001/XMLSchema#decimal"
def xsdDateTime : String := "http://www.w3.org/2001/XMLSchema#dateTime"
def xsdDateTimeStamp : String := "http://www.w3.org/2001/XMLSchema#dateTimeStamp"
def xsdTime : String := "http://www.w3.org/2001/XMLSchema#time"
def xsdDate : String := "http://www.w3.org/2001/XMLSchema#date"
def xsdGYearMonth : String := "http://www.w3.org/2001/XMLSchema#gYearMonth"
def xsdGYear : String := "http://www.w3.org/2001/XMLSchema#gYear"
def xsdGMonthDay : String := "http://www.w3.org/2001/XMLSchema#gMonthDay"
def xsdGDay : String := "http://www.w3.org/2001/XMLSchema#gDay"
def xsdGMonth : String := "http://www.w3.org/2001/XMLSchema#gMonth"
def xsdDuration : String := "http://www.w3.org/2001/XMLSchema#duration"
def xsdYearMonthDuration : String := "http://www.w3.org/2001/XMLSchema#yearMonthDuration"
def xsdDayTimeDuration : String := "http://www.w3.org/2001/XMLSchema#dayTimeDuration"

/-- The thirteen integer-family datatypes that numeric_encoder.rs
(lines 501-513) routes to `parse_integer_str`. -/
def integerDatatypeIris : List String :=
  [xsdInteger,
   "http://www.w3.org/2001/XMLSchema#byte",
   "http://www.w3.org/2001/XMLSchema#short",
   "http://www.w3.org/2001/XMLSchema#int",
   "http://www.w3.org/2001/XMLSchema#long",
   "http://www.w3.org/2001/XMLSchema#unsignedByte",
   "http://www.w3.org/2001/XMLSchema#unsignedShort",
   "http://www.w3.org/2001/XMLSchema#unsignedInt",
   "http://www.w3.org/2001/XMLSchema#unsignedLong",
   "http://www.w3.org/2001/XMLSchema#positiveInteger",
   "http://www.w3.org/2001/XMLSchema#negativeInteger",
   "http://www.w3.org/2001/XMLSchema#nonPositiveInteger",
   "http://www.w3.org/2001/XMLSchema#nonNegativeInteger"]

/-! ## `EncodedTerm` (numeric_encoder.rs 45-103) -/

/-- `EncodedTerm` (numeric_encoder.rs 45-103).  `EncodedTriple` — a
record of three encoded terms behind an `Rc` — is inlined into the
`triple` constructor. -/
inductive EncodedTerm where
  | defaultGraph
  | namedNode (iriId : StrHash)
  | numericalBlankNode (id : Nat)
  | smallBlankNode (id : String)
  | bigBlankNode (idId : StrHash)
  | smallStringLiteral (value : String)
  | bigStringLiteral (valueId : StrHash)
  | smallSmallLangStringLiteral (value language : String)
  | smallBigLangStringLiteral (value : String) (languageId : StrHash)
  | bigSmallLangStringLiteral (valueId : StrHash) (language : String)
  | bigBigLangStringLiteral (valueId languageId : StrHash)
  | smallTypedLiteral (value : String) (datatypeId : StrHash)
  | bigTypedLiteral (valueId datatypeId : StrHash)
  | booleanLiteral (b : Bool)
  | floatLiteral (f : F32)
  | doubleLiteral (f : F64)
  | integerLiteral (i : Int)
  | decimalLiteral (d : DecimalV)
  | dateTimeLiteral (v : DateTimeV)
  | timeLiteral (v : TimeV)
  | dateLiteral (v : DateV)
  | gYearMonthLiteral (v : GYearMonthV)
  | gYearLiteral (v : GYearV)
  | gMonthDayLiteral (v : GMonthDayV)
  | gDayLiteral (v : GDayV)
  | gMonthLiteral (v : GMonthV)
  | durationLiteral (v : DurationV)
  | yearMonthDurationLiteral (v : YearMonthDurationV)
  | dayTimeDurationLiteral (v : DayTimeDurationV)
  | triple (subject predicate object : EncodedTerm)
  deriving DecidableEq, Repr

/-- `parse_boolean_str` (numeric_encoder.rs 823-829). -/
def parseBooleanStr (value : String) : Option EncodedTerm :=
  if value = "true" ∨ value = "1" then some (.booleanLiteral true)
  else if value = "false" ∨ value = "0" then some (.booleanLiteral false)
  else none

/-- `parse_float_str` (numeric_encoder.rs 831-833). -/
def parseFloatStr (value : String) : Option EncodedTerm :=
  (rustParseF32 value).map .floatLiteral

/-- `parse_double_str` (numeric_encoder.rs 835-837). -/
def parseDoubleStr (value : String) : Option EncodedTerm :=
  (rustParseF64 value).map .doubleLiteral

/-- `parse_integer_str` (numeric_encoder.rs 839-841). -/
def parseIntegerStr (value : String) : Option EncodedTerm :=
  (rustParseI64 value).map .integerLiteral

/-- `parse_decimal_str` (numeric_encoder.rs 843-845); the inner
`Decimal::from_str` is spec-modelled, see `DecimalV`. -/
def parseDecimalStr (value : String) : Option EncodedTerm :=
  (rustParseDecimal value).map .decimalLiteral

/-- `parse_date_time_str` (numeric_encoder.rs 847-849); the inner
`DateTime::from_str` is spec-modelled, see `DateTimeV`. -/
def parseDateTimeStr (value : String) : Option EncodedTerm :=
  if dateTimeLexOk value then some (.dateTimeLiteral ⟨value⟩) else none

/-- `parse_time_str` (numeric_encoder.rs 851-853). -/
def parseTimeStr (value : String) : Option EncodedTerm :=
  if timeLexOk value then some (.timeLiteral ⟨value⟩) else none

/-- `parse_date_str` (numeric_encoder.rs 855-857). -/
def parseDateStr (value : String) : Option EncodedTerm :=
  if dateLexOk value then some (.dateLiteral ⟨value⟩) else none

/-- `parse_g_year_month_str` (numeric_encoder.rs 859-861). -/
def parseGYearMonthStr (value : String) : Option EncodedTerm :=
  if gYearMonthLexOk value then some (.gYearMonthLiteral ⟨value⟩) else none

/-- `parse_g_year_str` (numeric_encoder.rs 863-865). -/
def parseGYearStr (value : String) : Option EncodedTerm :=
  if gYearLexOk value then some (.gYearLiteral ⟨value⟩) else none

/-- `parse_g_month_day_str` (numeric_encoder.rs 867-869). -/
def parseGMonthDayStr (value : String) : Option EncodedTerm :=
  if gMonthDayLexOk value then some (.gMonthDayLiteral ⟨value⟩) else none

/-- `parse_g_day_str` (numeric_encoder.rs 871-873). -/
def parseGDayStr (value : String) : Option EncodedTerm :=
  if gDayLexOk value then some (.gDayLiteral ⟨value⟩) else none

/-- `parse_g_month_str` (numeric_encoder.rs 875-877). -/
def parseGMonthStr (value : String) : Option EncodedTerm :=
  if gMonthLexOk value then some (.gMonthLiteral ⟨value⟩) else none

/-- `parse_duration_str` (numeric_encoder.rs 879-881). -/
def parseDurationStr (value : String) : Option EncodedTerm :=
  if durationLexOk value then some (.durationLiteral ⟨value⟩) else none

/-- `parse_year_month_duration_str` (numeric_encoder.rs 883-888). -/
def parseYearMonthDurationStr (value : String) : Option EncodedTerm :=
  if yearMonthDurationLexOk value then some (.yearMonthDurationLiteral ⟨value⟩) else none

/-- `parse_day_time_duration_str` (numeric_encoder.rs 890-892). -/
def parseDayTimeDurationStr (value : String) : Option EncodedTerm :=
  if dayTimeDurationLexOk value then some (.dayTimeDurationLiteral ⟨value⟩) else none

/-! ## The RDF term model (`crate::model`)

`model/{literal,blank_node,named_node,triple}.rs` are not under `src/`;
the types are modelled from spec §3 ("Terms").  `Subject` and
`NamedNode` positions of a triple are collapsed into `RTerm` with the
well-formedness predicate `wellFormedRTerm` standing in for the Rust
type constraints. -/

/-- Modelled from the spec: a blank node carries either a 128-bit
numerical id or an arbitrary string id (§3); `BlankNodeRef::id()` is
`some` exactly in the numerical case. -/
inductive RBlankNode where
  | numerical (id : Nat)
  | named (label : String)
  deriving DecidableEq, Repr

/-- Modelled from the spec: a literal has one of three shapes — plain
string, language-tagged, or typed with a datatype IRI (§3). -/
inductive RLiteral where
  | simple (value : String)
  | langTagged (value language : String)
  | typed (value : String) (datatype : String)
  deriving DecidableEq, Repr

/-- `Literal::value`. -/
def RLiteral.value : RLiteral → String
  | .simple v => v
  | .langTagged v _ => v
  | .typed v _ => v

/-- `Literal::datatype().as_str()`: plain strings are `xsd:string`,
language-tagged strings are `rdf:langString`. -/
def RLiteral.datatype : RLiteral → String
  | .simple _ => xsdString
  | .langTagged _ _ => rdfLangString
  | .typed _ dt => dt

/-- `Literal::language`. -/
def RLiteral.language : RLiteral → Option String
  | .langTagged _ lang => some lang
  | _ => none

/-- The Rust `Literal` type invariant: `new_typed_literal` collapses
datatype `xsd:string` into the plain-string shape, so a `typed` value
never carries that datatype. -/
def wellFormedRLiteral : RLiteral → Bool
  | .typed _ dt => dt ≠ xsdString
  | _ => true

/-- Modelled from the spec: `Literal::new_typed_literal` collapses a
`xsd:string`-typed literal into the plain string shape. -/
def mkTypedLiteral (value datatype : String) : RLiteral :=
  if datatype = xsdString then .simple value else .typed value datatype

/-- The RDF `Term` (spec §3): IRI, blank node, literal, or a nested
RDF-star triple.  Triples are inlined as three subterms; the positional
constraints of `Subject`/`NamedNode` are captured by
`wellFormedRTerm`. -/
inductive RTerm where
  | namedNode (iri : String)
  | blankNode (b : RBlankNode)
  | literal (l : RLiteral)
  | triple (subject predicate object : RTerm)
  deriving DecidableEq, Repr

/-- Rust type constraints on terms: a triple's subject is an IRI, blank
node or triple, and its predicate is an IRI; literals are
well-formed. -/
def wellFormedRTerm : RTerm → Bool
  | .namedNode _ => true
  | .blankNode _ => true
  | .literal l => wellFormedRLiteral l
  | .triple s p o =>
    (match s with
     | .namedNode _ => true
     | .blankNode _ => true
     | .triple _ _ _ => true
     | .literal _ => false) &&
    wellFormedRTerm s &&
    (match p with
     | .namedNode _ => true
     | _ => false) &&
    wellFormedRTerm o

/-! ## Encoding (`From<…> for EncodedTerm`, numeric_encoder.rs 434-596) -/

/-- The `xsd:string` arm of literal encoding (numeric_encoder.rs
489-498): small strings inline, large ones by hash. -/
def smallBigStringEncoding (value : String) : EncodedTerm :=
  match smallStringTryFrom value with
  | some v => .smallStringLiteral v
  | none => .bigStringLiteral (strHashNew value)

/-- The `rdf:langString` arm (numeric_encoder.rs 464-487): four variants
by (value small?, language small?). -/
def langStringEncoding (value language : String) : EncodedTerm :=
  match smallStringTryFrom value with
  | some v =>
    (match smallStringTryFrom language with
     | some lang => .smallSmallLangStringLiteral v lang
     | none => .smallBigLangStringLiteral v (strHashNew language))
  | none =>
    (match smallStringTryFrom language with
     | some lang => .bigSmallLangStringLiteral (strHashNew value) lang
     | none => .bigBigLangStringLiteral (strHashNew value) (strHashNew language))

/-- The fall-through of literal encoding (numeric_encoder.rs 535-547):
an unknown or unparsable typed literal keeps its lexical form, inline or
hashed. -/
def fallbackTypedLiteral (value datatype : String) : EncodedTerm :=
  match smallStringTryFrom value with
  | some v => .smallTypedLiteral v (strHashNew datatype)
  | none => .bigTypedLiteral (strHashNew value) (strHashNew datatype)

/-- The `native_encoding` match of `From<LiteralRef> for EncodedTerm`
(numeric_encoder.rs 463-532), arm for arm in source order. -/
def literalNativeEncoding (l : RLiteral) : Option EncodedTerm :=
  let value := l.value
  let datatype := l.datatype
  if datatype = rdfLangString then
    l.language.map (langStringEncoding value)
  else if datatype = xsdBoolean then parseBooleanStr value
  else if datatype = xsdString then some (smallBigStringEncoding value)
  else if datatype = xsdFloat then parseFloatStr value
  else if datatype = xsdDouble then parseDoubleStr value
  else if integerDatatypeIris.contains datatype then parseIntegerStr value
  else if datatype = xsdDecimal then parseDecimalStr value
  else if datatype = xsdDateTime ∨ datatype = xsdDateTimeStamp then parseDateTimeStr value
  else if datatype = xsdTime then parseTimeStr value
  else if datatype = xsdDate then parseDateStr value
  else if datatype = xsdGYearMonth then parseGYearMonthStr value
  else if datatype = xsdGYear then parseGYearStr value
  else if datatype = xsdGMonthDay then parseGMonthDayStr value
  else if datatype = xsdGDay then parseGDayStr value
  else if datatype = xsdGMonth then parseGMonthStr value
  else if datatype = xsdDuration then parseDurationStr value
  else if datatype = xsdYearMonthDuration then parseYearMonthDurationStr value
  else if datatype = xsdDayTimeDuration then parseDayTimeDurationStr value
  else none

/-- `From<LiteralRef> for EncodedTerm` (numeric_encoder.rs 459-550). -/
def encodeLiteral (l : RLiteral) : EncodedTerm :=
  match literalNativeEncoding l with
  | some term => term
  | none => fallbackTypedLiteral l.value l.datatype

/-- `From<BlankNodeRef> for EncodedTerm` (numeric_encoder.rs 442-457). -/
def encodeBlankNode : RBlankNode → EncodedTerm
  | .numerical id => .numericalBlankNode id
  | .named label =>
    match smallStringTryFrom label with
    | some id => .smallBlankNode id
    | none => .bigBlankNode (strHashNew label)

/-- `From<TermRef> for EncodedTerm` (numeric_encoder.rs 571-596,
together with the `NamedNodeRef`, `SubjectRef` and `TripleRef`
instances). -/
def encodeTerm : RTerm → EncodedTerm
  | .namedNode iri => .namedNode (strHashNew iri)
  | .blankNode b => encodeBlankNode b
  | .literal l => encodeLiteral l
  | .triple s p o => .triple (encodeTerm s) (encodeTerm p) (encodeTerm o)

/-! ## `PartialEq for EncodedTerm` (numeric_encoder.rs 105-220) -/

/-- The custom `PartialEq::eq` of `EncodedTerm`: fieldwise equality in
every arm, except that a NaN float/double compares equal to any other
NaN; mismatched variants compare unequal via the final catch-all.  The
`is_identical_with` comparisons of the spec-modelled date/time values
are equality of the modelled values. -/
def encEq : EncodedTerm → EncodedTerm → Bool
  | .defaultGraph, .defaultGraph => true
  | .namedNode a, .namedNode b => a == b
  | .numericalBlankNode a, .numericalBlankNode b => a == b
  | .smallBlankNode a, .smallBlankNode b => a == b
  | .bigBlankNode a, .bigBlankNode b => a == b
  | .smallStringLiteral a, .smallStringLiteral b => a == b
  | .bigStringLiteral a, .bigStringLiteral b => a == b
  | .smallSmallLangStringLiteral va la, .smallSmallLangStringLiteral vb lb =>
    va == vb && la == lb
  | .smallBigLangStringLiteral va la, .smallBigLangStringLiteral vb lb =>
    va == vb && la == lb
  | .bigSmallLangStringLiteral va la, .bigSmallLangStringLiteral vb lb =>
    va == vb && la == lb
  | .bigBigLangStringLiteral va la, .bigBigLangStringLiteral vb lb =>
    va == vb && la == lb
  | .smallTypedLiteral va da, .smallTypedLiteral vb db => va == vb && da == db
  | .bigTypedLiteral va da, .bigTypedLiteral vb db => va == vb && da == db
  | .booleanLiteral a, .booleanLiteral b => a == b
  | .floatLiteral a, .floatLiteral b => if a.isNan then b.isNan else f32IeeeEq a b
  | .doubleLiteral a, .doubleLiteral b => if a.isNan then b.isNan else f64IeeeEq a b
  | .integerLiteral a, .integerLiteral b => a == b
  | .decimalLiteral a, .decimalLiteral b => a == b
  | .dateTimeLiteral a, .dateTimeLiteral b => a == b
  | .timeLiteral a, .timeLiteral b => a == b
  | .dateLiteral a, .dateLiteral b => a == b
  | .gYearMonthLiteral a, .gYearMonthLiteral b => a == b
  | .gYearLiteral a, .gYearLiteral b => a == b
  | .gMonthDayLiteral a, .gMonthDayLiteral b => a == b
  | .gMonthLiteral a, .gMonthLiteral b => a == b
  | .gDayLiteral a, .gDayLiteral b => a == b
  | .durationLiteral a, .durationLiteral b => a == b
  | .yearMonthDurationLiteral a, .yearMonthDurationLiteral b => a == b
  | .dayTimeDurationLiteral a, .dayTimeDurationLiteral b => a == b
  | .triple sa pa oa, .triple sb pb ob => encEq sa sb && encEq pa pb && encEq oa ob
  | _, _ => false

/-! ## `Hash for EncodedTerm` (numeric_encoder.rs 224-283) -/

/-- One datum written to the `Hasher` state.  Distinct constructors keep
the payload kinds apart; `bytes` models a raw `Hasher::write` of a bit
pattern (`to_ne_bytes`). -/
inductive HashTok where
  | nat (n : Nat)
  | int (i : Int)
  | str (s : String)
  | bool (b : Bool)
  | bytes (bits : Nat)
  deriving DecidableEq, Repr

/-- The sequence of data the custom `Hash::hash` of `EncodedTerm` feeds
to the hasher: only payloads, no variant discriminant; floats and
doubles contribute their raw bit pattern (`to_ne_bytes`), every other
payload its value; a nested triple contributes its three components in
order. -/
def hashStream : EncodedTerm → List HashTok
  | .defaultGraph => []
  | .namedNode iriId => [.str iriId]
  | .numericalBlankNode id => [.nat id]
  | .smallBlankNode id => [.str id]
  | .bigBlankNode idId => [.str idId]
  | .smallStringLiteral v => [.str v]
  | .bigStringLiteral vId => [.str vId]
  | .smallSmallLangStringLiteral v lang => [.str v, .str lang]
  | .smallBigLangStringLiteral v langId => [.str v, .str langId]
  | .bigSmallLangStringLiteral vId lang => [.str vId, .str lang]
  | .bigBigLangStringLiteral vId langId => [.str vId, .str langId]
  | .smallTypedLiteral v dtId => [.str v, .str dtId]
  | .bigTypedLiteral vId dtId => [.str vId, .str dtId]
  | .booleanLiteral b => [.bool b]
  | .floatLiteral f => [.bytes f.bits]
  | .doubleLiteral f => [.bytes f.bits]
  | .integerLiteral i => [.int i]
  | .decimalLiteral d => [.int d.scaled]
  | .dateTimeLiteral v => [.str v.lex]
  | .timeLiteral v => [.str v.lex]
  | .dateLiteral v => [.str v.lex]
  | .gYearMonthLiteral v => [.str v.lex]
  | .gYearLiteral v => [.str v.lex]
  | .gMonthDayLiteral v => [.str v.lex]
  | .gDayLiteral v => [.str v.lex]
  | .gMonthLiteral v => [.str v.lex]
  | .durationLiteral v => [.str v.lex]
  | .yearMonthDurationLiteral v => [.str v.lex]
  | .dayTimeDurationLiteral v => [.str v.lex]
  | .triple s p o => hashStream s ++ hashStream p ++ hashStream o

/-! ## Canonical lexical forms of native values

`Literal::from(bool | i64 | f32 | f64 | Decimal | …)` lives in the
absent `model/literal.rs` and `model/xsd`; the decoders below are
modelled from the spec. -/

/-- Modelled from the spec: `Literal::from(bool)` renders `true`/`false`
with datatype `xsd:boolean`. -/
def literalFromBool (b : Bool) : RLiteral :=
  .typed (if b then "true" else "false") xsdBoolean

/-- Exact decimal rendering of `(-1)^neg * m * 2^k`. -/
def decimalOfPow2 (neg : Bool) (m : Nat) (k : Int) : String :=
  let sign := if neg then "-" else ""
  if m = 0 then sign ++ "0"
  else if 0 ≤ k then sign ++ toString (m * 2 ^ k.toNat)
  else
    let j := (-k).toNat
    let digits := Nat.toDigits 10 (m * 5 ^ j)
    let digits := List.replicate (j + 1 - digits.length) '0' ++ digits
    let ipart := digits.take (digits.length - j)
    let fpart := (digits.drop (digits.length - j)).reverse.dropWhile (· = '0')
    sign ++ String.mk ipart ++ (if fpart.isEmpty then "" else "." ++ String.mk fpart.reverse)

/-- Modelled from the spec: the `Display` rendering a float
`Literal::from` uses.  Specials render as `NaN`/`inf`/`-inf`; a finite
value is rendered as its exact decimal expansion (Rust prints the
shortest decimal denoting the same value; no theorem depends on these
strings). -/
def fpToLexical (mantBits expBits bits : Nat) : String :=
  let signExp := 2 ^ (mantBits + expBits)
  let neg := signExp ≤ bits
  let mag := bits % signExp
  let expField := mag / 2 ^ mantBits
  let mant := mag % 2 ^ mantBits
  if expField = 2 ^ expBits - 1 then
    if mant ≠ 0 then "NaN" else if neg then "-inf" else "inf"
  else
    let bias : Int := 2 ^ (expBits - 1) - 1
    if expField = 0 then decimalOfPow2 neg mant (1 - bias - mantBits)
    else decimalOfPow2 neg (mant + 2 ^ mantBits) (expField - bias - mantBits)

/-- Modelled from the spec: `Literal::from(f64)`. -/
def f64ToLexical (x : F64) : String := fpToLexical 52 11 x.bits

/-- Modelled from the spec: `Literal::from(f32)`. -/
def f32ToLexical (x : F32) : String := fpToLexical 23 8 x.bits

/-- Modelled from the spec: `Literal::from(Decimal)` renders the
18-digit fixed-point value with trailing fractional zeros trimmed. -/
def decimalToLexical (d : DecimalV) : String :=
  let sign := if d.scaled < 0 then "-" else ""
  let n := d.scaled.natAbs
  let ipart := n / 10 ^ 18
  let fdigits := Nat.toDigits 10 (n % 10 ^ 18)
  let fdigits := List.replicate (18 - fdigits.length) '0' ++ fdigits
  let fpart := fdigits.reverse.dropWhile (· = '0')
  sign ++ toString ipart ++ (if fpart.isEmpty then "" else "." ++ String.mk fpart.reverse)

/-! ## Decoding (`decode_term`, numeric_encoder.rs 977-1056) -/

/-- The pure string-store view a decoder reads
(`StrLookup::get_str`). -/
def Store := StrHash → Option String

/-- The distinct `DecoderError::Decoder` messages of numeric_encoder.rs,
as an inductive so they can be told apart. -/
inductive DecodeMsg where
  | notAbleToFindString (id : StrHash)
  | defaultGraphTag
  | literalInsteadOfSubject
  | literalInsteadOfNamedNode
  | blankInsteadOfNamedNode
  | tripleInsteadOfNamedNode
  deriving DecidableEq, Repr

/-- `get_required_str` (numeric_encoder.rs 1058-1071). -/
def getRequiredStr (st : Store) (id : StrHash) : Except DecodeMsg String :=
  match st id with
  | some s => .ok s
  | none => .error (.notAbleToFindString id)

/-- `decode_term` (numeric_encoder.rs 977-1056).  The `decode_subject`
and `decode_named_node` wrappers used by `decode_triple` are inlined in
the `triple` arm with their exact error cases. -/
def decodeTerm (st : Store) : EncodedTerm → Except DecodeMsg RTerm
  | .defaultGraph => .error .defaultGraphTag
  | .namedNode iriId => do pure (.namedNode (← getRequiredStr st iriId))
  | .numericalBlankNode id => .ok (.blankNode (.numerical id))
  | .smallBlankNode id => .ok (.blankNode (.named id))
  | .bigBlankNode idId => do pure (.blankNode (.named (← getRequiredStr st idId)))
  | .smallStringLiteral v => .ok (.literal (.simple v))
  | .bigStringLiteral vId => do pure (.literal (.simple (← getRequiredStr st vId)))
  | .smallSmallLangStringLiteral v lang => .ok (.literal (.langTagged v lang))
  | .smallBigLangStringLiteral v langId => do
    pure (.literal (.langTagged v (← getRequiredStr st langId)))
  | .bigSmallLangStringLiteral vId lang => do
    pure (.literal (.langTagged (← getRequiredStr st vId) lang))
  | .bigBigLangStringLiteral vId langId => do
    let v ← getRequiredStr st vId
    let lang ← getRequiredStr st langId
    pure (.literal (.langTagged v lang))
  | .smallTypedLiteral v dtId => do
    pure (.literal (mkTypedLiteral v (← getRequiredStr st dtId)))
  | .bigTypedLiteral vId dtId => do
    let v ← getRequiredStr st vId
    let dt ← getRequiredStr st dtId
    pure (.literal (mkTypedLiteral v dt))
  | .booleanLiteral b => .ok (.literal (literalFromBool b))
  | .floatLiteral f => .ok (.literal (.typed (f32ToLexical f) xsdFloat))
  | .doubleLiteral f => .ok (.literal (.typed (f64ToLexical f) xsdDouble))
  | .integerLiteral i => .ok (.literal (.typed (toString i) xsdInteger))
  | .decimalLiteral d => .ok (.literal (.typed (decimalToLexical d) xsdDecimal))
  | .dateTimeLiteral v => .ok (.literal (.typed v.lex xsdDateTime))
  | .timeLiteral v => .ok (.literal (.typed v.lex xsdTime))
  | .dateLiteral v => .ok (.literal (.typed v.lex xsdDate))
  | .gYearMonthLiteral v => .ok (.literal (.typed v.lex xsdGYearMonth))
  | .gYearLiteral v => .ok (.literal (.typed v.lex xsdGYear))
  | .gMonthDayLiteral v => .ok (.literal (.typed v.lex xsdGMonthDay))
  | .gDayLiteral v => .ok (.literal (.typed v.lex xsdGDay))
  | .gMonthLiteral v => .ok (.literal (.typed v.lex xsdGMonth))
  | .durationLiteral v => .ok (.literal (.typed v.lex xsdDuration))
  | .yearMonthDurationLiteral v => .ok (.literal (.typed v.lex xsdYearMonthDuration))
  | .dayTimeDurationLiteral v => .ok (.literal (.typed v.lex xsdDayTimeDuration))
  | .triple s p o => do
    let s' ← decodeTerm st s
    match s' with
    | .literal _ => .error .literalInsteadOfSubject
    | _ =>
      let p' ← decodeTerm st p
      match p' with
      | .namedNode _ => do
        let o' ← decodeTerm st o
        pure (.triple s' p' o')
      | .blankNode _ => .error .blankInsteadOfNamedNode
      | .literal _ => .error .literalInsteadOfNamedNode
      | .triple _ _ _ => .error .tripleInsteadOfNamedNode

/-- The string store in which every hash maps to the string it
content-addresses: the fully populated store. -/
def fullStore : Store := fun h => some h

/-! ## Recorded strings (`insert_term_values`, numeric_encoder.rs 714-774) -/

/-- Modelled from the spec: `BlankNode::as_str` of a numerical blank
node renders the 128-bit id as 32 lowercase hex digits
(`model/blank_node.rs` is not under `src/`). -/
def numericalBlankLabel (id : Nat) : String :=
  let ds := Nat.toDigits 16 id
  String.mk (List.replicate (32 - ds.length) '0' ++ ds)

/-- `BlankNode::as_str`. -/
def RBlankNode.asStr : RBlankNode → String
  | .numerical id => numericalBlankLabel id
  | .named label => label

/-- `insert_term_values` (numeric_encoder.rs 714-774): the `(hash,
string)` pairs handed to the `insert_str` callback, in call order, when
inserting `term` encoded as `encoded`. -/
def insertTermValues : RTerm → EncodedTerm → List (StrHash × String)
  | .namedNode iri, .namedNode iriId => [(iriId, iri)]
  | .blankNode b, .bigBlankNode idId => [(idId, b.asStr)]
  | .literal l, .bigStringLiteral valueId => [(valueId, l.value)]
  | .literal l, .smallBigLangStringLiteral _ languageId =>
    (match l.language with
     | some lang => [(languageId, lang)]
     | none => [])
  | .literal l, .bigSmallLangStringLiteral valueId _ => [(valueId, l.value)]
  | .literal l, .bigBigLangStringLiteral valueId languageId =>
    (valueId, l.value) ::
      (match l.language with
       | some lang => [(languageId, lang)]
       | none => [])
  | .literal l, .smallTypedLiteral _ datatypeId => [(datatypeId, l.datatype)]
  | .literal l, .bigTypedLiteral valueId datatypeId =>
    [(valueId, l.value), (datatypeId, l.datatype)]
  | .triple s p o, .triple es ep eo =>
    insertTermValues s es ++ insertTermValues p ep ++ insertTermValues o eo
  | _, _ => []

/-! ## Shape predicates on encoded terms -/

/-- An encoded term is one of the native value variants (the
boolean/numeric/date-time/duration fast path of spec §3). -/
def isNativeVariant : EncodedTerm → Bool
  | .booleanLiteral _ | .floatLiteral _ | .doubleLiteral _ | .integerLiteral _
  | .decimalLiteral _ | .dateTimeLiteral _ | .timeLiteral _ | .dateLiteral _
  | .gYearMonthLiteral _ | .gYearLiteral _ | .gMonthDayLiteral _ | .gDayLiteral _
  | .gMonthLiteral _ | .durationLiteral _ | .yearMonthDurationLiteral _
  | .dayTimeDurationLiteral _ => true
  | _ => false

/-- The encoded variants `decode_subject` accepts (those that decode to
an IRI, a blank node or a triple). -/
def encSubjectShapeOk : EncodedTerm → Bool
  | .namedNode _ | .numericalBlankNode _ | .smallBlankNode _ | .bigBlankNode _
  | .triple _ _ _ => true
  | _ => false

/-- The encoded variants `decode_named_node` accepts. -/
def encPredShapeOk : EncodedTerm → Bool
  | .namedNode _ => true
  | _ => false

/-- An encoded term that can be produced for a term position: not the
`DefaultGraph` sentinel, and nested triples have a non-literal subject
and a `NamedNode` predicate (mirroring what `decode_subject` and
`decode_named_node` accept). -/
def wellFormedEnc : EncodedTerm → Bool
  | .defaultGraph => false
  | .triple s p o =>
    encSubjectShapeOk s && wellFormedEnc s && encPredShapeOk p && wellFormedEnc o
  | _ => true

/-- The string hashes `decode_term` looks up for an encoded term, in
lookup order. -/
def refHashes : EncodedTerm → List StrHash
  | .namedNode iriId => [iriId]
  | .bigBlankNode idId => [idId]
  | .bigStringLiteral vId => [vId]
  | .smallBigLangStringLiteral _ langId => [langId]
  | .bigSmallLangStringLiteral vId _ => [vId]
  | .bigBigLangStringLiteral vId langId => [vId, langId]
  | .smallTypedLiteral _ dtId => [dtId]
  | .bigTypedLiteral vId dtId => [vId, dtId]
  | .triple s p o => refHashes s ++ refHashes p ++ refHashes o
  | _ => []

/-- No float/double payload anywhere in the term is a NaN or a signed
zero — the payloads whose equal values can have distinct bit
patterns. -/
def noSpecialFloat : EncodedTerm → Bool
  | .floatLiteral f => !f.isNan && !f.isZero
  | .doubleLiteral f => !f.isNan && !f.isZero
  | .triple s p o => noSpecialFloat s && noSpecialFloat p && noSpecialFloat o
  | _ => true

/-- Every literal of the term encodes to a non-native variant (IRIs,
blank nodes, strings, language-tagged strings, unknown datatypes and
literals whose native parse fails). -/
def literalsNonNative : RTerm → Bool
  | .literal l => !isNativeVariant (encodeLiteral l)
  | .triple s p o => literalsNonNative s && literalsNonNative p && literalsNonNative o
  | _ => true

/-! ## `decode_named_node` (numeric_encoder.rs 924-940) -/

/-- `Decoder::decode_named_node`: decode and insist on an IRI. -/
def decodeNamedNode (st : Store) (enc : EncodedTerm) : Except DecodeMsg String := do
  match ← decodeTerm st enc with
  | .namedNode iri => pure iri
  | .blankNode _ => .error .blankInsteadOfNamedNode
  | .literal _ => .error .literalInsteadOfNamedNode
  | .triple _ _ _ => .error .tripleInsteadOfNamedNode

/-! ## SPARQL update templates (`sparql/update.rs`)

The `spargebra` pattern types consumed by `SimpleUpdateEvaluator` are
the external SPARQL-algebra interface of spec §6; they are mirrored
structurally (nested triple patterns inlined). -/

/-- spargebra `NamedNodePattern`. -/
inductive NamedNodePat where
  | namedNode (iri : String)
  | var (name : String)
  deriving DecidableEq, Repr

/-- spargebra `GraphNamePattern`. -/
inductive GraphNamePat where
  | namedNode (iri : String)
  | defaultGraph
  | var (name : String)
  deriving DecidableEq, Repr

/-- spargebra `TermPattern` (with `TriplePattern` inlined). -/
inductive TermPat where
  | namedNode (iri : String)
  | blankNode (label : String)
  | literal (l : RLiteral)
  | triple (subject : TermPat) (predicate : NamedNodePat) (object : TermPat)
  | var (name : String)
  deriving DecidableEq, Repr

/-- spargebra `QuadPattern` (an INSERT template). -/
structure QuadPat where
  subject : TermPat
  predicate : NamedNodePat
  object : TermPat
  graphName : GraphNamePat
  deriving DecidableEq, Repr

/-- spargebra `GroundTermPattern` (with `GroundTriplePattern` inlined):
note the type has no blank-node constructor. -/
inductive GroundTermPat where
  | namedNode (iri : String)
  | literal (l : RLiteral)
  | triple (subject : GroundTermPat) (predicate : NamedNodePat) (object : GroundTermPat)
  | var (name : String)
  deriving DecidableEq, Repr

/-- spargebra `GroundQuadPattern` (a DELETE template). -/
structure GroundQuadPat where
  subject : GroundTermPat
  predicate : NamedNodePat
  object : GroundTermPat
  graphName : GraphNamePat
  deriving DecidableEq, Repr

/-- The injection of ground patterns into general patterns. -/
def GroundTermPat.toTermPat : GroundTermPat → TermPat
  | .namedNode iri => .namedNode iri
  | .literal l => .literal l
  | .triple s p o => .triple s.toTermPat p o.toTermPat
  | .var v => .var v

/-- The injection of ground quad patterns into quad patterns. -/
def GroundQuadPat.toQuadPat (q : GroundQuadPat) : QuadPat :=
  ⟨q.subject.toTermPat, q.predicate, q.object.toTermPat, q.graphName⟩

/-- Whether a term pattern mentions a blank node. -/
def termPatHasBlankNode : TermPat → Bool
  | .blankNode _ => true
  | .triple s _ o => termPatHasBlankNode s || termPatHasBlankNode o
  | _ => false

/-- Whether a quad pattern mentions a blank node. -/
def quadPatHasBlankNode (q : QuadPat) : Bool :=
  termPatHasBlankNode q.subject || termPatHasBlankNode q.object

/-- `GraphName` of `crate::model`: IRI, blank node or the default
graph. -/
inductive OxGraphName where
  | namedNode (iri : String)
  | blankNode (b : RBlankNode)
  | defaultGraph
  deriving DecidableEq, Repr

/-- `Quad` of `crate::model` as `eval_delete_insert` materializes it. -/
structure OxQuad where
  subject : RTerm
  predicate : String
  object : RTerm
  graphName : OxGraphName
  deriving DecidableEq, Repr

/-- `EncodedTuple` (sparql/plan.rs, a collaborator of update.rs): a
sparse map from variable slot to encoded term; `get i` is `none` when
the slot is unbound or out of range. -/
def EncodedTuple := List (Option EncodedTerm)

/-- `lookup_variable` (update.rs 592-602): position of the variable in
the variable table, then the tuple slot at that position. -/
def lookupVariable (v : String) (vars : List String) (tup : EncodedTuple) : Option EncodedTerm :=
  (vars.findIdx? (fun v2 => v == v2)).bind fun i => tup.getD i none

/-- The blank-node allocation state of one DELETE/INSERT evaluation:
the `HashMap<BlankNode, OxBlankNode>` plus the source of fresh ids
(`BlankNode::default` draws a random 128-bit id; modelled by a
counter). -/
structure BnodeState where
  map : List (String × Nat)
  counter : Nat
  deriving DecidableEq, Repr

/-- `convert_blank_node` (update.rs 306-311): `entry().or_default()` —
reuse an existing mapping, otherwise allocate a fresh blank node and
remember it. -/
def convertBlankNode (label : String) (bs : BnodeState) : RBlankNode × BnodeState :=
  match bs.map.lookup label with
  | some id => (.numerical id, bs)
  | none => (.numerical bs.counter, ⟨(label, bs.counter) :: bs.map, bs.counter + 1⟩)

/-- `convert_named_node_or_var` (update.rs 424-436). -/
def convertNamedNodeOrVar (ds : Store) (vars : List String) (tup : EncodedTuple) :
    NamedNodePat → Except DecodeMsg (Option String)
  | .namedNode iri => .ok (some iri)
  | .var v =>
    match lookupVariable v vars tup with
    | none => .ok none
    | some enc => (decodeNamedNode ds enc).map some

/-- `convert_graph_name_or_var` (update.rs 438-457): a variable bound to
the `DefaultGraph` sentinel (compared with the custom `==`) maps to the
default graph, otherwise it must decode to an IRI. -/
def convertGraphNameOrVar (ds : Store) (vars : List String) (tup : EncodedTuple) :
    GraphNamePat → Except DecodeMsg (Option OxGraphName)
  | .namedNode iri => .ok (some (.namedNode iri))
  | .defaultGraph => .ok (some .defaultGraph)
  | .var v =>
    match lookupVariable v vars tup with
    | none => .ok none
    | some node =>
      if encEq node .defaultGraph then .ok (some .defaultGraph)
      else (decodeNamedNode ds node).map fun iri => some (.namedNode iri)

/-- `convert_term_or_var` (update.rs 403-422) together with the inlined
`convert_triple_pattern` (update.rs 459-494): an unbound variable gives
`none` (skip); a nested triple template with a literal or unbound
subject, unbound predicate or unbound object gives `none`; blank nodes
allocate through the threaded `BnodeState`. -/
def convertTermOrVar (ds : Store) (vars : List String) (tup : EncodedTuple) :
    BnodeState → TermPat → Except DecodeMsg (Option RTerm × BnodeState)
  | bs, .namedNode iri => .ok (some (.namedNode iri), bs)
  | bs, .blankNode label =>
    let (b, bs') := convertBlankNode label bs
    .ok (some (.blankNode b), bs')
  | bs, .literal l => .ok (some (.literal l), bs)
  | bs, .var v =>
    (match lookupVariable v vars tup with
     | none => .ok (none, bs)
     | some enc => (decodeTerm ds enc).map fun t => (some t, bs))
  | bs, .triple ts tp tobj => do
    let (sOpt, bs1) ← convertTermOrVar ds vars tup bs ts
    match sOpt with
    | none | some (.literal _) => pure (none, bs1)
    | some s' =>
      match ← convertNamedNodeOrVar ds vars tup tp with
      | none => pure (none, bs1)
      | some p' =>
        let (oOpt, bs2) ← convertTermOrVar ds vars tup bs1 tobj
        match oOpt with
        | none => pure (none, bs2)
        | some o' => pure (some (.triple s' (.namedNode p') o'), bs2)

/-- `convert_quad_pattern` (update.rs 359-401): subject, predicate,
object, graph name in order, with an early `Ok(None)` (skip) whenever a
position yields no value or the subject is a literal. -/
def convertQuadPattern (ds : Store) (vars : List String) (tup : EncodedTuple)
    (bs : BnodeState) (q : QuadPat) : Except DecodeMsg (Option OxQuad × BnodeState) := do
  let (sOpt, bs1) ← convertTermOrVar ds vars tup bs q.subject
  match sOpt with
  | none | some (.literal _) => pure (none, bs1)
  | some s' =>
    match ← convertNamedNodeOrVar ds vars tup q.predicate with
    | none => pure (none, bs1)
    | some p' =>
      let (oOpt, bs2) ← convertTermOrVar ds vars tup bs1 q.object
      match oOpt with
      | none => pure (none, bs2)
      | some o' =>
        match ← convertGraphNameOrVar ds vars tup q.graphName with
        | none => pure (none, bs2)
        | some g' => pure (some ⟨s', p', o', g'⟩, bs2)

/-- `convert_ground_term_or_var` (update.rs 538-555) with the inlined
`convert_ground_triple_pattern` (update.rs 557-590): no blank nodes can
occur, so no allocation state is taken. -/
def convertGroundTermOrVar (ds : Store) (vars : List String) (tup : EncodedTuple) :
    GroundTermPat → Except DecodeMsg (Option RTerm)
  | .namedNode iri => .ok (some (.namedNode iri))
  | .literal l => .ok (some (.literal l))
  | .var v =>
    (match lookupVariable v vars tup with
     | none => .ok none
     | some enc => (decodeTerm ds enc).map some)
  | .triple ts tp tobj => do
    match ← convertGroundTermOrVar ds vars tup ts with
    | none | some (.literal _) => pure none
    | some s' =>
      match ← convertNamedNodeOrVar ds vars tup tp with
      | none => pure none
      | some p' =>
        match ← convertGroundTermOrVar ds vars tup tobj with
        | none => pure none
        | some o' => pure (some (.triple s' (.namedNode p') o'))

/-- `convert_ground_quad_pattern` (update.rs 496-536). -/
def convertGroundQuadPattern (ds : Store) (vars : List String) (tup : EncodedTuple)
    (q : GroundQuadPat) : Except DecodeMsg (Option OxQuad) := do
  match ← convertGroundTermOrVar ds vars tup q.subject with
  | none | some (.literal _) => pure none
  | some s' =>
    match ← convertNamedNodeOrVar ds vars tup q.predicate with
    | none => pure none
    | some p' =>
      match ← convertGroundTermOrVar ds vars tup q.object with
      | none => pure none
      | some o' =>
        match ← convertGraphNameOrVar ds vars tup q.graphName with
        | none => pure none
        | some g' => pure (some ⟨s', p', o', g'⟩)

/-- `StorageWriter::insert` viewed on the materialized quad set
(idempotent per spec §4.3). -/
def insertQuad (store : List OxQuad) (q : OxQuad) : List OxQuad :=
  if store.contains q then store else store ++ [q]

/-- `StorageWriter::remove` viewed on the materialized quad set. -/
def removeQuad (store : List OxQuad) (q : OxQuad) : List OxQuad :=
  store.filter (· ≠ q)

/-- One solution row of `eval_delete_insert` (update.rs 154-170): all
DELETE templates are instantiated and removed, then all INSERT templates
are instantiated (threading the blank-node state) and inserted;
templates that convert to `none` are skipped. -/
def processRow (ds : Store) (vars : List String) (tup : EncodedTuple)
    (del : List GroundQuadPat) (ins : List QuadPat)
    (store : List OxQuad) (bs : BnodeState) :
    Except DecodeMsg (List OxQuad × BnodeState) := do
  let store1 ← del.foldlM
    (fun st q => do
      match ← convertGroundQuadPattern ds vars tup q with
      | some quad => pure (removeQuad st quad)
      | none => pure st)
    store
  ins.foldlM
    (fun acc q => do
      match ← convertQuadPattern ds vars tup acc.2 q with
      | (some quad, b2) => pure (insertQuad acc.1 quad, b2)
      | (none, b2) => pure (acc.1, b2))
    (store1, bs)

/-- The solution loop of `eval_delete_insert` (update.rs 153-171): one
shared blank-node map, cleared after every row (`bnodes.clear()`), so
each row allocates its blank nodes afresh. -/
def evalDeleteInsertRows (ds : Store) (vars : List String)
    (del : List GroundQuadPat) (ins : List QuadPat) :
    List EncodedTuple → List OxQuad → BnodeState →
    Except DecodeMsg (List OxQuad × BnodeState)
  | [], store, bs => .ok (store, bs)
  | tup :: rows, store, bs => do
    let (store1, bs1) ← processRow ds vars tup del ins store bs
    evalDeleteInsertRows ds vars del ins rows store1 ⟨[], bs1.counter⟩

/-! ## `Reader::scan_prefix` (backend/rocksdb.rs 575-640)

Keys are byte strings (`List Nat`, each element a byte value); the
column family is a finite set of keys compared by the RocksDB bytewise
comparator (lexicographic, a proper prefix sorting first). -/

/-- Bytewise lexicographic strict order on keys. -/
def lexLt : List Nat → List Nat → Bool
  | [], [] => false
  | [], _ :: _ => true
  | _ :: _, [] => false
  | a :: as_, b :: bs_ =>
    if a < b then true
    else if b < a then false
    else lexLt as_ bs_

/-- `a ≤ b` in the bytewise order. -/
def lexLe (a b : List Nat) : Bool := !lexLt b a

/-- Insertion sort by the bytewise order (the order in which the
iterator visits keys). -/
def insertLex (k : List Nat) : List (List Nat) → List (List Nat)
  | [] => [k]
  | x :: xs => if lexLt k x then k :: x :: xs else x :: insertLex k xs

/-- All keys of the column family in iteration order. -/
def sortLex (keys : List (List Nat)) : List (List Nat) :=
  keys.foldr insertLex []

/-- The upper bound computed by `scan_prefix` (rocksdb.rs 577-592): walk
the prefix from the end and increment the first byte below `u8::MAX`,
keeping any trailing `0xff` bytes; `none` when every byte is `0xff`.
(Helper on the reversed prefix.) -/
def incrFirstFromEnd : List Nat → Option (List Nat)
  | [] => none
  | c :: rest =>
    if c < 255 then some ((c + 1) :: rest)
    else (incrFirstFromEnd rest).map (c :: ·)

/-- The upper bound `scan_prefix` fixes at iterator creation. -/
def upperBoundIncr (p : List Nat) : Option (List Nat) :=
  (incrFirstFromEnd p.reverse).map List.reverse

/-- `scan_prefix` (rocksdb.rs 575-640): seek to the first key `≥ prefix`
and iterate in order; the read options carry the upper bound (exclusive)
when one was found, otherwise iteration runs to the end of the column
family.  `Iter` (rocksdb.rs 842-901) yields keys without any further
filtering. -/
def scanPrefixKeys (keys : List (List Nat)) (p : List Nat) : List (List Nat) :=
  (sortLex keys).filter fun k =>
    lexLe p k &&
      match upperBoundIncr p with
      | some ub => lexLt k ub
      | none => true

/-- `k` starts with the byte prefix `p`. -/
def startsWithBytes : List Nat → List Nat → Bool
  | [], _ => true
  | _ :: _, [] => false
  | a :: as_, b :: bs_ => a == b && startsWithBytes as_ bs_

/-! ## The transaction life cycle (backend/rocksdb.rs 660-773)

The RocksDB engine itself is the external collaborator of spec §1; its
transaction semantics are modelled from the spec: pending writes are a
batch the base state never sees until `commit` applies it atomically
(§3 "A transaction's writes become atomically visible on commit"). -/

/-- A write recorded inside a transaction (`Transaction::insert`,
`remove`, `merge`, rocksdb.rs 733-772). -/
inductive WriteOp where
  | put (cf : Nat) (key value : List Nat)
  | del (cf : Nat) (key : List Nat)
  | mergeAdd (cf : Nat) (key : List Nat) (count : Int)
  deriving DecidableEq, Repr

/-- The committed key-value state: per (column family, key) either a
plain value or a merge-maintained refcount. -/
structure KvState where
  entries : List ((Nat × List Nat) × (List Nat × Int))
  deriving DecidableEq, Repr

/-- Read a key from the committed state. -/
def kvGet (db : KvState) (cf : Nat) (k : List Nat) : Option (List Nat × Int) :=
  (db.entries.find? fun e => e.1 = (cf, k)).map (·.2)

/-- Remove a key from the committed state. -/
def kvRemoveKey (db : KvState) (cf : Nat) (k : List Nat) : KvState :=
  ⟨db.entries.filter fun e => e.1 ≠ (cf, k)⟩

/-- Modelled from the spec: applying one committed write.  The merge
operator sums refcounts and the compaction filter drops a key whose
count reaches zero (§4.1). -/
def applyOp (db : KvState) : WriteOp → KvState
  | .put cf k v => ⟨((cf, k), (v, 0)) :: (kvRemoveKey db cf k).entries⟩
  | .del cf k => kvRemoveKey db cf k
  | .mergeAdd cf k c =>
    match kvGet db cf k with
    | none => if c = 0 then db else ⟨((cf, k), ([], c)) :: db.entries⟩
    | some (v, c0) =>
      if c0 + c = 0 then kvRemoveKey db cf k
      else ⟨((cf, k), (v, c0 + c)) :: (kvRemoveKey db cf k).entries⟩

/-- Apply a whole batch in order. -/
def applyBatch (db : KvState) (batch : List WriteOp) : KvState :=
  batch.foldl applyOp db

/-- A live transaction: its pending batch and the `is_ended` cell
(rocksdb.rs 665-669). -/
structure RTxn where
  batch : List WriteOp
  isEnded : Bool
  deriving DecidableEq, Repr

/-- A freshly begun transaction (`Db::transaction`, rocksdb.rs 399-425). -/
def newTxn : RTxn := ⟨[], false⟩

/-- Record a write in the transaction. -/
def RTxn.write (t : RTxn) (op : WriteOp) : RTxn :=
  ⟨t.batch ++ [op], t.isEnded⟩

/-- `Transaction::commit` (rocksdb.rs 687-690): mark ended, then the
engine applies the pending batch to the base state. -/
def commitTxn (db : KvState) (t : RTxn) : KvState × RTxn :=
  (applyBatch db t.batch, ⟨t.batch, true⟩)

/-- `Transaction::rollback` (rocksdb.rs 692-695): mark ended and discard
the pending batch; the base state is untouched. -/
def rollbackTxn (db : KvState) (_t : RTxn) : KvState × RTxn :=
  (db, ⟨[], true⟩)

/-- `Drop for InnerTransaction` (rocksdb.rs 677-684): roll back exactly
when the transaction was not already ended. -/
def dropTxn (db : KvState) (t : RTxn) : KvState :=
  if t.isEnded then db else (rollbackTxn db t).1

/-- Modelled from the spec: `Storage::transaction` (storage/mod.rs is
not under `src/`): run the closure on a fresh transaction; commit when
it returns `Ok`, otherwise the transaction value is dropped and rolled
back (§4.3, §5 "A transaction is rolled back if its closure returns an
error or is dropped without commit").  The closure reports its final
transaction state and an optional error.  Returns the outcome and the
state subsequent readers see. -/
def storageTransaction (db : KvState) (f : RTxn → RTxn × Option String) :
    Except String KvState × KvState :=
  match f newTxn with
  | (t, none) => ((.ok (commitTxn db t).1), (commitTxn db t).1)
  | (t, some e) => (.error e, dropTxn db t)

/-! ## CREATE / DROP GRAPH (update.rs 203-262) -/

/-- The visible graph state: the `GRAPHS` column family plus the quad
set. -/
structure GraphStore where
  graphs : List String
  quads : List OxQuad
  deriving DecidableEq, Repr

/-- Modelled from the spec: `StorageWriter::insert_named_graph`
(storage/mod.rs is not under `src/`): "Add g to GRAPHS; error if exists"
(§4.8) — adds the graph and reports whether it was new. -/
def insertNamedGraph (st : GraphStore) (g : String) : GraphStore × Bool :=
  if st.graphs.contains g then (st, false)
  else ({ st with graphs := g :: st.graphs }, true)

/-- Modelled from the spec: `StorageWriter::remove_named_graph`
(storage/mod.rs is not under `src/`): "Remove g and all its quads; error
if absent" (§4.8) — reports whether the graph existed. -/
def removeNamedGraph (st : GraphStore) (g : String) : GraphStore × Bool :=
  if st.graphs.contains g then
    (⟨st.graphs.filter (· ≠ g), st.quads.filter (·.graphName ≠ .namedNode g)⟩, true)
  else (st, false)

/-- The errors `eval_create`/`eval_drop` raise. -/
inductive UpdErr where
  | graphAlreadyExists (g : String)
  | graphDoesNotExist (g : String)
  deriving DecidableEq, Repr

/-- `eval_create` (update.rs 203-213): ok when the graph was inserted or
`SILENT`, otherwise "The graph already exists". -/
def evalCreate (st : GraphStore) (g : String) (silent : Bool) : Except UpdErr GraphStore :=
  let (st2, inserted) := insertNamedGraph st g
  if inserted || silent then .ok st2 else .error (.graphAlreadyExists g)

/-- The named-graph arm of `eval_drop` (update.rs 243-255): ok when the
graph was removed or `SILENT`, otherwise "The graph does not exists". -/
def evalDrop (st : GraphStore) (g : String) (silent : Bool) : Except UpdErr GraphStore :=
  let (st2, removed) := removeNamedGraph st g
  if removed || silent then .ok st2 else .error (.graphDoesNotExist g)

/-! ## The Sophia `TTerm` surface (model/sophia.rs)

Panicking methods are modelled as `Option`-returning functions that are
`none` exactly where the source panics. -/

/-- Sophia `TermKind`. -/
inductive TermKind where
  | iri
  | blankNode
  | literal
  deriving DecidableEq, Repr

/-- `Subject` of `crate::model`: IRI, blank node, or RDF-star triple. -/
inductive SSubject where
  | namedNode (iri : String)
  | blankNode (b : RBlankNode)
  | triple (s p o : RTerm)
  deriving DecidableEq, Repr

/-- `TTerm::kind for Subject` (sophia.rs 191-197): panics on `Triple`. -/
def sophiaSubjectKind : SSubject → Option TermKind
  | .namedNode _ => some .iri
  | .blankNode _ => some .blankNode
  | .triple _ _ _ => none

/-- `TTerm::value_raw for Subject` (sophia.rs 199-205): panics on
`Triple`. -/
def sophiaSubjectValueRaw : SSubject → Option String
  | .namedNode iri => some iri
  | .blankNode b => some b.asStr
  | .triple _ _ _ => none

/-- `TTerm::as_dyn for Subject` (sophia.rs 207-213): panics on `Triple`,
otherwise hands out the term itself as a trait object. -/
def sophiaSubjectAsDyn : SSubject → Option SSubject
  | .namedNode iri => some (.namedNode iri)
  | .blankNode b => some (.blankNode b)
  | .triple _ _ _ => none

/-- `TTerm::kind for Term` (sophia.rs 258-265): panics on `Triple`. -/
def sophiaTermKind : RTerm → Option TermKind
  | .namedNode _ => some .iri
  | .blankNode _ => some .blankNode
  | .literal _ => some .literal
  | .triple _ _ _ => none

/-- `TTerm::value_raw for Term` (sophia.rs 267-274): panics on
`Triple`. -/
def sophiaTermValueRaw : RTerm → Option String
  | .namedNode iri => some iri
  | .blankNode b => some b.asStr
  | .literal l => some l.value
  | .triple _ _ _ => none

/-- `TTerm::as_dyn for Term` (sophia.rs 292-299): panics on `Triple`. -/
def sophiaTermAsDyn : RTerm → Option RTerm
  | .namedNode iri => some (.namedNode iri)
  | .blankNode b => some (.blankNode b)
  | .literal l => some (.literal l)
  | .triple _ _ _ => none

/-! ## Miscellaneous -/

/-- Whether an `Except` value is a success. -/
def exceptIsOk {ε α : Type} : Except ε α → Bool
  | .ok _ => true
  | .error _ => false

/-- The datatype IRIs whose literals get a native parse attempt in
`From<LiteralRef> for EncodedTerm` (numeric_encoder.rs 488-530, without
`rdf:langString` and `xsd:string`). -/
def isNativeDatatypeIri (dt : String) : Bool :=
  dt == xsdBoolean || dt == xsdFloat || dt == xsdDouble
    || integerDatatypeIris.contains dt || dt == xsdDecimal
    || dt == xsdDateTime || dt == xsdDateTimeStamp || dt == xsdTime || dt == xsdDate
    || dt == xsdGYearMonth || dt == xsdGYear || dt == xsdGMonthDay || dt == xsdGDay
    || dt == xsdGMonth || dt == xsdDuration || dt == xsdYearMonthDuration
    || dt == xsdDayTimeDuration

/-!
# Theorems
-/

/-- **C8.** For every pair of encoded Float or Double literals, the
custom `PartialEq` agrees with IEEE 754 comparison except that any NaN
value equals any NaN value, and the hash input of a Float or Double
literal is exactly its raw bit pattern. -/
theorem floatDoubleEqIeeeExceptNanHashBits :
    (∀ a b : F64, encEq (.doubleLiteral a) (.doubleLiteral b)
        = (f64IeeeEq a b || (a.isNan && b.isNan)))
    ∧ (∀ a b : F32, encEq (.floatLiteral a) (.floatLiteral b)
        = (f32IeeeEq a b || (a.isNan && b.isNan)))
    ∧ (∀ v : F64, hashStream (.doubleLiteral v) = [.bytes v.bits])
    ∧ (∀ v : F32, hashStream (.floatLiteral v) = [.bytes v.bits]) := by
  refine ⟨fun a b => ?_, fun a b => ?_, fun v => rfl, fun v => rfl⟩
  · show (if a.isNan then b.isNan else f64IeeeEq a b) = _
    cases h : a.isNan <;> simp [f64IeeeEq, h]
  · show (if a.isNan then b.isNan else f32IeeeEq a b) = _
    cases h : a.isNan <;> simp [f32IeeeEq, h]

/-- **C10 counterexample.** The two quiet-NaN bit patterns (positive and
negative sign) give equal `EncodedTerm`s whose hash inputs differ, so
`a == b` does not imply `hash a == hash b`. -/
theorem nanEqualButHashDiffers :
    encEq (.doubleLiteral ⟨0x7ff8000000000000⟩) (.doubleLiteral ⟨0xfff8000000000000⟩) = true
    ∧ hashStream (.doubleLiteral ⟨0x7ff8000000000000⟩)
        ≠ hashStream (.doubleLiteral ⟨0xfff8000000000000⟩) := by
  constructor
  · decide
  · decide

/-- **C5 (code bug).** Evaluation of `scan_prefix` on the failing input:
for prefix `[1, 255]` the computed upper bound keeps the trailing `0xff`
(`[2, 255]`), and over a column family with keys `[1,255,7]` and `[2,0]`
the scan also yields `[2, 0]`, which does not start with the prefix. -/
theorem scanPrefixYieldsForeignKey :
    upperBoundIncr [1, 255] = some [2, 255]
    ∧ scanPrefixKeys [[2, 0], [1, 255, 7]] [1, 255] = [[1, 255, 7], [2, 0]]
    ∧ startsWithBytes [1, 255] [1, 255, 7] = true
    ∧ startsWithBytes [1, 255] [2, 0] = false := by decide

/-- **C9.** The Sophia `TTerm` methods `kind`, `value_raw` and `as_dyn`
panic (modelled `none`) on every RDF-star `Triple` input, for `Subject`
and for `Term`, while every other variant returns a value. -/
theorem sophiaTTermPanicsOnTriple :
    ∀ s p o : RTerm,
      sophiaSubjectKind (.triple s p o) = none
      ∧ sophiaSubjectValueRaw (.triple s p o) = none
      ∧ sophiaSubjectAsDyn (.triple s p o) = none
      ∧ sophiaTermKind (.triple s p o) = none
      ∧ sophiaTermValueRaw (.triple s p o) = none
      ∧ sophiaTermAsDyn (.triple s p o) = none
      ∧ (∀ iri, sophiaTermKind (.namedNode iri) = some .iri)
      ∧ (∀ b, sophiaTermKind (.blankNode b) = some .blankNode)
      ∧ (∀ l, sophiaTermKind (.literal l) = some .literal)
      ∧ (∀ iri, sophiaSubjectKind (.namedNode iri) = some .iri)
      ∧ (∀ b, sophiaSubjectKind (.blankNode b) = some .blankNode) :=
  fun _ _ _ =>
    ⟨rfl, rfl, rfl, rfl, rfl, rfl, fun _ => rfl, fun _ => rfl, fun _ => rfl,
     fun _ => rfl, fun _ => rfl⟩

/-- Filtering away an element removes it from `contains`. -/
theorem containsFilterNeFalse {α : Type} [DecidableEq α] (l : List α) (a : α) :
    (l.filter (· ≠ a)).contains a = false := by
  induction l with
  | nil => rfl
  | cons x xs ih =>
    by_cases hx : x = a
    · simp [List.filter, hx, ih]
    · simp [List.filter, hx, List.contains, List.elem, Ne.symm hx, ih]

/-- **C7.** On a store without graph `g`: `CREATE g` succeeds; a second
`CREATE g` errors unless `SILENT`; `DROP g` then succeeds and removes
the graph; a second `DROP g` errors unless `SILENT`. -/
theorem createDropLifecycle (st : GraphStore) (g : String)
    (habs : st.graphs.contains g = false) :
    ∃ st1 st2,
      evalCreate st g false = .ok st1
      ∧ st1.graphs.contains g = true
      ∧ evalCreate st1 g false = .error (.graphAlreadyExists g)
      ∧ evalCreate st1 g true = .ok st1
      ∧ evalDrop st1 g false = .ok st2
      ∧ st2.graphs.contains g = false
      ∧ evalDrop st2 g false = .error (.graphDoesNotExist g)
      ∧ evalDrop st2 g true = .ok st2 := by
  have habs' : g ∉ st.graphs := by simpa using habs
  have hmem : (g :: st.graphs).contains g = true := by
    simp [List.contains, List.elem]
  have hmem' : g ∈ g :: st.graphs := List.mem_cons_self g _
  have hfilter : ((g :: st.graphs).filter (· ≠ g)).contains g = false :=
    containsFilterNeFalse _ _
  have hfilter' : g ∉ (g :: st.graphs).filter (· ≠ g) := by simp_all
  refine ⟨⟨g :: st.graphs, st.quads⟩,
          ⟨(g :: st.graphs).filter (· ≠ g), st.quads.filter (·.graphName ≠ .namedNode g)⟩,
          ?_, hmem, ?_, ?_, ?_, hfilter, ?_, ?_⟩
  · simp [evalCreate, insertNamedGraph, habs']
  · simp [evalCreate, insertNamedGraph, hmem']
  · simp [evalCreate, insertNamedGraph, hmem']
  · simp [evalDrop, removeNamedGraph, hmem']
  · simp [evalDrop, removeNamedGraph, hfilter']
  · simp [evalDrop, removeNamedGraph, hfilter']

/-- **C7 witness.** The lifecycle on the empty store. -/
theorem createDropLifecycle_witness :
    ∃ st1 st2,
      evalCreate ⟨[], []⟩ "http://example.com/g" false = .ok st1
      ∧ st1.graphs.contains "http://example.com/g" = true
      ∧ evalCreate st1 "http://example.com/g" false
          = .error (.graphAlreadyExists "http://example.com/g")
      ∧ evalCreate st1 "http://example.com/g" true = .ok st1
      ∧ evalDrop st1 "http://example.com/g" false = .ok st2
      ∧ st2.graphs.contains "http://example.com/g" = false
      ∧ evalDrop st2 "http://example.com/g" false
          = .error (.graphDoesNotExist "http://example.com/g")
      ∧ evalDrop st2 "http://example.com/g" true = .ok st2 :=
  createDropLifecycle ⟨[], []⟩ "http://example.com/g" rfl

/-- **C6.** A transaction that ends without a successful commit leaves
the committed state untouched: explicit `rollback` returns the base
state, `Drop` of a not-ended transaction rolls back, a closure error
makes `Storage::transaction` report the error with the base state
visible to subsequent readers (for every key), and dropping an already
committed transaction does not undo the commit. -/
theorem abortedTransactionInvisible (db : KvState) (t : RTxn)
    (f : RTxn → RTxn × Option String) (e : String) :
    (rollbackTxn db t).1 = db
    ∧ (t.isEnded = false → dropTxn db t = db)
    ∧ ((f newTxn).2 = some e → (f newTxn).1.isEnded = false →
        storageTransaction db f = (.error e, db))
    ∧ dropTxn (commitTxn db t).1 (commitTxn db t).2 = (commitTxn db t).1
    ∧ ((f newTxn).2 = some e → (f newTxn).1.isEnded = false →
        ∀ cf k, kvGet (storageTransaction db f).2 cf k = kvGet db cf k) := by
  have hdrop : ∀ (t' : RTxn), t'.isEnded = false → dropTxn db t' = db := by
    intro t' h
    simp [dropTxn, h, rollbackTxn]
  have hclr : (f newTxn).2 = some e → (f newTxn).1.isEnded = false →
      storageTransaction db f = (.error e, db) := by
    intro h1 h2
    unfold storageTransaction
    rcases hf : f newTxn with ⟨t', r⟩
    rw [hf] at h1 h2
    simp only at h1 h2
    subst h1
    simp [hdrop t' h2]
  refine ⟨rfl, hdrop t, hclr, ?_, fun h1 h2 cf k => ?_⟩
  · simp [commitTxn, dropTxn]
  · rw [hclr h1 h2]

/-- **C6 witness.** A closure that writes a key and then fails leaves a
concrete store unchanged. -/
theorem abortedTransactionInvisible_witness :
    storageTransaction ⟨[((0, [7]), ([1], 0))]⟩
        (fun t0 => (t0.write (.put 0 [7] [9]), some "boom"))
      = (.error "boom", ⟨[((0, [7]), ([1], 0))]⟩) :=
  (abortedTransactionInvisible ⟨[((0, [7]), ([1], 0))]⟩ newTxn
      (fun t0 => (t0.write (.put 0 [7] [9]), some "boom")) "boom").2.2.1 rfl rfl

/-! ### Helper lemmas on the literal encoding -/

/-- `SmallString::try_from` only succeeds with the input string. -/
theorem smallStringTryFromEq {s x : String} (h : smallStringTryFrom s = some x) : x = s := by
  unfold smallStringTryFrom at h
  split at h
  · cases h; rfl
  · cases h

theorem parseBooleanStrNative {v : String} {e : EncodedTerm}
    (h : parseBooleanStr v = some e) : isNativeVariant e = true := by
  unfold parseBooleanStr at h
  split at h
  · cases h; rfl
  · split at h
    · cases h; rfl
    · cases h

theorem parseFloatStrNative {v : String} {e : EncodedTerm}
    (h : parseFloatStr v = some e) : isNativeVariant e = true := by
  unfold parseFloatStr at h
  cases h0 : rustParseF32 v <;> rw [h0] at h <;> simp at h
  rw [← h]; rfl

theorem parseDoubleStrNative {v : String} {e : EncodedTerm}
    (h : parseDoubleStr v = some e) : isNativeVariant e = true := by
  unfold parseDoubleStr at h
  cases h0 : rustParseF64 v <;> rw [h0] at h <;> simp at h
  rw [← h]; rfl

theorem parseIntegerStrNative {v : String} {e : EncodedTerm}
    (h : parseIntegerStr v = some e) : isNativeVariant e = true := by
  unfold parseIntegerStr at h
  cases h0 : rustParseI64 v <;> rw [h0] at h <;> simp at h
  rw [← h]; rfl

theorem parseDecimalStrNative {v : String} {e : EncodedTerm}
    (h : parseDecimalStr v = some e) : isNativeVariant e = true := by
  unfold parseDecimalStr at h
  cases h0 : rustParseDecimal v <;> rw [h0] at h <;> simp at h
  rw [← h]; rfl

theorem parseDateTimeStrNative {v : String} {e : EncodedTerm}
    (h : parseDateTimeStr v = some e) : isNativeVariant e = true := by
  unfold parseDateTimeStr at h
  split at h
  · cases h; rfl
  · cases h

theorem parseTimeStrNative {v : String} {e : EncodedTerm}
    (h : parseTimeStr v = some e) : isNativeVariant e = true := by
  unfold parseTimeStr at h
  split at h
  · cases h; rfl
  · cases h

theorem parseDateStrNative {v : String} {e : EncodedTerm}
    (h : parseDateStr v = some e) : isNativeVariant e = true := by
  unfold parseDateStr at h
  split at h
  · cases h; rfl
  · cases h

theorem parseGYearMonthStrNative {v : String} {e : EncodedTerm}
    (h : parseGYearMonthStr v = some e) : isNativeVariant e = true := by
  unfold parseGYearMonthStr at h
  split at h
  · cases h; rfl
  · cases h

theorem parseGYearStrNative {v : String} {e : EncodedTerm}
    (h : parseGYearStr v = some e) : isNativeVariant e = true := by
  unfold parseGYearStr at h
  split at h
  · cases h; rfl
  · cases h

theorem parseGMonthDayStrNative {v : String} {e : EncodedTerm}
    (h : parseGMonthDayStr v = some e) : isNativeVariant e = true := by
  unfold parseGMonthDayStr at h
  split at h
  · cases h; rfl
  · cases h

theorem parseGDayStrNative {v : String} {e : EncodedTerm}
    (h : parseGDayStr v = some e) : isNativeVariant e = true := by
  unfold parseGDayStr at h
  split at h
  · cases h; rfl
  · cases h

theorem parseGMonthStrNative {v : String} {e : EncodedTerm}
    (h : parseGMonthStr v = some e) : isNativeVariant e = true := by
  unfold parseGMonthStr at h
  split at h
  · cases h; rfl
  · cases h

theorem parseDurationStrNative {v : String} {e : EncodedTerm}
    (h : parseDurationStr v = some e) : isNativeVariant e = true := by
  unfold parseDurationStr at h
  split at h
  · cases h; rfl
  · cases h

theorem parseYearMonthDurationStrNative {v : String} {e : EncodedTerm}
    (h : parseYearMonthDurationStr v = some e) : isNativeVariant e = true := by
  unfold parseYearMonthDurationStr at h
  split at h
  · cases h; rfl
  · cases h

theorem parseDayTimeDurationStrNative {v : String} {e : EncodedTerm}
    (h : parseDayTimeDurationStr v = some e) : isNativeVariant e = true := by
  unfold parseDayTimeDurationStr at h
  split at h
  · cases h; rfl
  · cases h

/-- Whenever the `native_encoding` match succeeds on a datatype other
than `rdf:langString` and `xsd:string`, the produced variant is
native. -/
theorem nativeEncodingIsNative (l : RLiteral) (e : EncodedTerm)
    (hlang : l.datatype ≠ rdfLangString) (hstr : l.datatype ≠ xsdString)
    (h : literalNativeEncoding l = some e) : isNativeVariant e = true := by
  simp only [literalNativeEncoding] at h
  rw [if_neg hlang] at h
  by_cases hc1 : l.datatype = xsdBoolean
  · rw [if_pos hc1] at h; exact parseBooleanStrNative h
  rw [if_neg hc1] at h
  by_cases hc2 : l.datatype = xsdString
  · exact absurd hc2 hstr
  rw [if_neg hc2] at h
  by_cases hc3 : l.datatype = xsdFloat
  · rw [if_pos hc3] at h; exact parseFloatStrNative h
  rw [if_neg hc3] at h
  by_cases hc4 : l.datatype = xsdDouble
  · rw [if_pos hc4] at h; exact parseDoubleStrNative h
  rw [if_neg hc4] at h
  by_cases hc5 : integerDatatypeIris.contains l.datatype = true
  · rw [if_pos hc5] at h; exact parseIntegerStrNative h
  rw [if_neg hc5] at h
  by_cases hc6 : l.datatype = xsdDecimal
  · rw [if_pos hc6] at h; exact parseDecimalStrNative h
  rw [if_neg hc6] at h
  by_cases hc7 : l.datatype = xsdDateTime ∨ l.datatype = xsdDateTimeStamp
  · rw [if_pos hc7] at h; exact parseDateTimeStrNative h
  rw [if_neg hc7] at h
  by_cases hc8 : l.datatype = xsdTime
  · rw [if_pos hc8] at h; exact parseTimeStrNative h
  rw [if_neg hc8] at h
  by_cases hc9 : l.datatype = xsdDate
  · rw [if_pos hc9] at h; exact parseDateStrNative h
  rw [if_neg hc9] at h
  by_cases hc10 : l.datatype = xsdGYearMonth
  · rw [if_pos hc10] at h; exact parseGYearMonthStrNative h
  rw [if_neg hc10] at h
  by_cases hc11 : l.datatype = xsdGYear
  · rw [if_pos hc11] at h; exact parseGYearStrNative h
  rw [if_neg hc11] at h
  by_cases hc12 : l.datatype = xsdGMonthDay
  · rw [if_pos hc12] at h; exact parseGMonthDayStrNative h
  rw [if_neg hc12] at h
  by_cases hc13 : l.datatype = xsdGDay
  · rw [if_pos hc13] at h; exact parseGDayStrNative h
  rw [if_neg hc13] at h
  by_cases hc14 : l.datatype = xsdGMonth
  · rw [if_pos hc14] at h; exact parseGMonthStrNative h
  rw [if_neg hc14] at h
  by_cases hc15 : l.datatype = xsdDuration
  · rw [if_pos hc15] at h; exact parseDurationStrNative h
  rw [if_neg hc15] at h
  by_cases hc16 : l.datatype = xsdYearMonthDuration
  · rw [if_pos hc16] at h; exact parseYearMonthDurationStrNative h
  rw [if_neg hc16] at h
  by_cases hc17 : l.datatype = xsdDayTimeDuration
  · rw [if_pos hc17] at h; exact parseDayTimeDurationStrNative h
  rw [if_neg hc17] at h
  cases h

/-- None of the native datatype IRIs is `rdf:langString` or
`xsd:string`. -/
theorem nativeDatatypeNotLangOrString (dt : String) (h : isNativeDatatypeIri dt = true) :
    dt ≠ rdfLangString ∧ dt ≠ xsdString := by
  constructor
  · intro he; rw [he] at h; exact absurd h (by decide)
  · intro he; rw [he] at h; exact absurd h (by decide)

/-- Decoding a small/big typed fall-back literal from a store holding
its value and datatype strings recovers the literal unchanged. -/
theorem decodeFallbackTypedOk (st : Store) (v dt : String) (hdt : dt ≠ xsdString)
    (hv : st v = some v) (hd : st dt = some dt) :
    decodeTerm st (fallbackTypedLiteral v dt) = .ok (.literal (.typed v dt)) := by
  unfold fallbackTypedLiteral
  cases h0 : smallStringTryFrom v with
  | some sv =>
    obtain rfl := smallStringTryFromEq h0
    simp [decodeTerm, getRequiredStr, strHashNew, hd, mkTypedLiteral, hdt]
  | none =>
    simp [decodeTerm, getRequiredStr, strHashNew, hv, hd, mkTypedLiteral, hdt, bind,
      Except.bind, pure, Except.pure]

/-- **C2 counterexample.** `"nan"^^xsd:double` is not preserved as a
(non-native) typed literal: Rust's float parser matches `nan`
case-insensitively, so encoding yields the native `DoubleLiteral`
NaN. -/
theorem nanLowercaseEncodesNative :
    encodeLiteral (.typed "nan" xsdDouble) = .doubleLiteral ⟨0x7ff8000000000000⟩
    ∧ isNativeVariant (encodeLiteral (.typed "nan" xsdDouble)) = true := by
  constructor
  · decide
  · decide

/-- **C2 (amended).** For every literal whose datatype IRI is in the
fixed native XSD set, encoding attempts the native parse: on success the
literal is stored as that native variant; on failure it falls through to
the Small/Big typed form preserving the lexical form (decoding the
fall-back from a store holding its strings gives the literal back).  In
particular both `"NaN"^^xsd:double` and — contrary to the original
claim — `"nan"^^xsd:double` are encoded as the native `DoubleLiteral`
NaN. -/
theorem nativeParseDichotomy (v dt : String) (h : isNativeDatatypeIri dt = true) :
    (∀ e, literalNativeEncoding (.typed v dt) = some e →
        encodeLiteral (.typed v dt) = e ∧ isNativeVariant e = true)
    ∧ (literalNativeEncoding (.typed v dt) = none →
        encodeLiteral (.typed v dt) = fallbackTypedLiteral v dt
        ∧ decodeTerm fullStore (fallbackTypedLiteral v dt) = .ok (.literal (.typed v dt)))
    ∧ encodeLiteral (.typed "nan" xsdDouble) = .doubleLiteral ⟨0x7ff8000000000000⟩
    ∧ encodeLiteral (.typed "NaN" xsdDouble) = .doubleLiteral ⟨0x7ff8000000000000⟩ := by
  obtain ⟨h1, h2⟩ := nativeDatatypeNotLangOrString dt h
  refine ⟨fun e he => ⟨?_, ?_⟩, fun hn => ⟨?_, ?_⟩, by decide, by decide⟩
  · unfold encodeLiteral; rw [he]
  · exact nativeEncodingIsNative (.typed v dt) e h1 h2 he
  · unfold encodeLiteral
    rw [hn]
    rfl
  · exact decodeFallbackTypedOk fullStore v dt h2 rfl rfl

/-- **C2 witness.** The dichotomy applied to the unparsable
`"zzz"^^xsd:double`. -/
theorem nativeParseDichotomy_witness :
    encodeLiteral (.typed "zzz" xsdDouble) = fallbackTypedLiteral "zzz" xsdDouble
    ∧ decodeTerm fullStore (fallbackTypedLiteral "zzz" xsdDouble)
        = .ok (.literal (.typed "zzz" xsdDouble)) :=
  (nativeParseDichotomy "zzz" xsdDouble (by decide)).2.1 (by decide)

/-! ### `Except` reductions -/

@[simp] theorem bindOkE {ε α β : Type} (a : α) (f : α → Except ε β) :
    (Except.ok a : Except ε α) >>= f = f a := rfl

@[simp] theorem bindErrE {ε α β : Type} (er : ε) (f : α → Except ε β) :
    (Except.error er : Except ε α) >>= f = Except.error er := rfl

@[simp] theorem pureOkE {ε α : Type} (a : α) : (pure a : Except ε α) = Except.ok a := rfl

theorem exceptIsOkIff {ε α : Type} (r : Except ε α) :
    exceptIsOk r = true ↔ ∃ a, r = .ok a := by
  cases r <;> simp [exceptIsOk]

/-! ### Shape of decoded terms -/

/-- Inverting a successful decode of a nested triple: all three
components decoded successfully and the result is a triple. -/
theorem decodeTripleInv (st : Store) (a b c : EncodedTerm) (x : RTerm)
    (h : decodeTerm st (.triple a b c) = .ok x) :
    (∃ u, decodeTerm st a = .ok u) ∧ (∃ v, decodeTerm st b = .ok v)
    ∧ (∃ w, decodeTerm st c = .ok w) ∧ ∃ u v w, x = .triple u v w := by
  simp only [decodeTerm] at h
  cases ha : decodeTerm st a <;> rw [ha] at h
  · simp at h
  case ok u =>
    simp only [bindOkE] at h
    cases u <;> simp only [] at h
    case literal => cases h
    all_goals
      refine ⟨⟨_, rfl⟩, ?_⟩
      cases hb : decodeTerm st b <;> rw [hb] at h
      · simp at h
      case ok v =>
        simp only [bindOkE] at h
        cases v <;> simp only [] at h
        case blankNode => cases h
        case literal => cases h
        case triple => cases h
        case namedNode =>
          refine ⟨⟨_, rfl⟩, ?_⟩
          cases hc : decodeTerm st c <;> rw [hc] at h
          · simp at h
          case ok w =>
            simp only [bindOkE, pureOkE, Except.ok.injEq] at h
            exact ⟨⟨_, rfl⟩, _, _, _, h.symm⟩

/-- A successful decode of a `NamedNode` code is an IRI. -/
theorem decodeNamedShape (st : Store) (i : StrHash) (x : RTerm)
    (h : decodeTerm st (.namedNode i) = .ok x) : ∃ s, x = .namedNode s := by
  simp only [decodeTerm] at h
  cases hi : st i <;> simp [getRequiredStr, hi] at h
  exact ⟨_, h.symm⟩

/-- A successful decode of a subject-shaped code is not a literal. -/
theorem decodeSubjectNotLiteral (st : Store) (s : EncodedTerm) (x : RTerm)
    (hs : encSubjectShapeOk s = true) (h : decodeTerm st s = .ok x) :
    ∀ l, x ≠ .literal l := by
  intro l hx
  subst hx
  cases s <;> try simp [encSubjectShapeOk] at hs
  case namedNode i =>
    obtain ⟨_, hc⟩ := decodeNamedShape st i _ h
    simp at hc
  case numericalBlankNode i => simp [decodeTerm] at h
  case smallBlankNode i => simp [decodeTerm] at h
  case bigBlankNode i =>
    simp only [decodeTerm] at h
    cases hi : st i <;> simp [getRequiredStr, hi] at h
  case triple a b c =>
    obtain ⟨_, _, _, hc⟩ := (decodeTripleInv st a b c _ h).2.2.2
    simp at hc

/-- Assembling a successful decode of a nested triple from its
components. -/
theorem decodeTripleOkOfComponents (st : Store) (a b c : EncodedTerm) (u v w : RTerm)
    (ha : decodeTerm st a = .ok u) (hb : decodeTerm st b = .ok v)
    (hc : decodeTerm st c = .ok w)
    (hsa : encSubjectShapeOk a = true) (hpb : encPredShapeOk b = true) :
    decodeTerm st (.triple a b c) = .ok (.triple u v w) := by
  have hu := decodeSubjectNotLiteral st a u hsa ha
  have hv : ∃ s, v = .namedNode s := by
    cases b <;> simp [encPredShapeOk] at hpb
    exact decodeNamedShape st _ _ hb
  obtain ⟨iv, rfl⟩ := hv
  simp only [decodeTerm, ha, bindOkE]
  cases u with
  | literal l => exact absurd rfl (hu l)
  | namedNode i => simp [hb, hc, bindOkE, pureOkE]
  | blankNode bb => simp [hb, hc, bindOkE, pureOkE]
  | triple x y z => simp [hb, hc, bindOkE, pureOkE]

/-- **C3 counterexample.** Decoding the `DefaultGraph` sentinel fails
with a decoder error although it references no string hash at all. -/
theorem decodeDefaultGraphErrorNoMissingHash :
    decodeTerm fullStore .defaultGraph = .error .defaultGraphTag
    ∧ refHashes .defaultGraph = []
    ∧ (∀ h ∈ refHashes (.defaultGraph : EncodedTerm), (fullStore h).isSome = true) :=
  ⟨rfl, rfl, by simp [refHashes]⟩

/-- **C3 (amended).** For every well-formed encoded term (not the
`DefaultGraph` sentinel, nested triples with subject/predicate of legal
shape), decoding succeeds exactly when every referenced string hash is
present in the store — so a decode error occurs only on a missing
hash. -/
theorem decodeOkIffHashesPresent :
    ∀ e : EncodedTerm, wellFormedEnc e = true → ∀ st : Store,
      (exceptIsOk (decodeTerm st e) = true ↔ ∀ h ∈ refHashes e, (st h).isSome = true) := by
  intro e
  induction e with
  | defaultGraph => intro hwf; simp [wellFormedEnc] at hwf
  | namedNode i =>
    intro _ st
    cases hi : st i <;>
      simp [decodeTerm, getRequiredStr, refHashes, hi, exceptIsOk]
  | numericalBlankNode id => intro _ st; simp [decodeTerm, refHashes, exceptIsOk]
  | smallBlankNode id => intro _ st; simp [decodeTerm, refHashes, exceptIsOk]
  | bigBlankNode i =>
    intro _ st
    cases hi : st i <;>
      simp [decodeTerm, getRequiredStr, refHashes, hi, exceptIsOk]
  | smallStringLiteral v => intro _ st; simp [decodeTerm, refHashes, exceptIsOk]
  | bigStringLiteral i =>
    intro _ st
    cases hi : st i <;>
      simp [decodeTerm, getRequiredStr, refHashes, hi, exceptIsOk]
  | smallSmallLangStringLiteral v lang => intro _ st; simp [decodeTerm, refHashes, exceptIsOk]
  | smallBigLangStringLiteral v i =>
    intro _ st
    cases hi : st i <;>
      simp [decodeTerm, getRequiredStr, refHashes, hi, exceptIsOk]
  | bigSmallLangStringLiteral i lang =>
    intro _ st
    cases hi : st i <;>
      simp [decodeTerm, getRequiredStr, refHashes, hi, exceptIsOk]
  | bigBigLangStringLiteral i j =>
    intro _ st
    cases hi : st i <;> cases hj : st j <;>
      simp [decodeTerm, getRequiredStr, refHashes, hi, hj, exceptIsOk]
  | smallTypedLiteral v i =>
    intro _ st
    cases hi : st i <;>
      simp [decodeTerm, getRequiredStr, refHashes, hi, exceptIsOk]
  | bigTypedLiteral i j =>
    intro _ st
    cases hi : st i <;> cases hj : st j <;>
      simp [decodeTerm, getRequiredStr, refHashes, hi, hj, exceptIsOk]
  | booleanLiteral b => intro _ st; simp [decodeTerm, refHashes, exceptIsOk]
  | floatLiteral f => intro _ st; simp [decodeTerm, refHashes, exceptIsOk]
  | doubleLiteral f => intro _ st; simp [decodeTerm, refHashes, exceptIsOk]
  | integerLiteral i => intro _ st; simp [decodeTerm, refHashes, exceptIsOk]
  | decimalLiteral d => intro _ st; simp [decodeTerm, refHashes, exceptIsOk]
  | dateTimeLiteral v => intro _ st; simp [decodeTerm, refHashes, exceptIsOk]
  | timeLiteral v => intro _ st; simp [decodeTerm, refHashes, exceptIsOk]
  | dateLiteral v => intro _ st; simp [decodeTerm, refHashes, exceptIsOk]
  | gYearMonthLiteral v => intro _ st; simp [decodeTerm, refHashes, exceptIsOk]
  | gYearLiteral v => intro _ st; simp [decodeTerm, refHashes, exceptIsOk]
  | gMonthDayLiteral v => intro _ st; simp [decodeTerm, refHashes, exceptIsOk]
  | gDayLiteral v => intro _ st; simp [decodeTerm, refHashes, exceptIsOk]
  | gMonthLiteral v => intro _ st; simp [decodeTerm, refHashes, exceptIsOk]
  | durationLiteral v => intro _ st; simp [decodeTerm, refHashes, exceptIsOk]
  | yearMonthDurationLiteral v => intro _ st; simp [decodeTerm, refHashes, exceptIsOk]
  | dayTimeDurationLiteral v => intro _ st; simp [decodeTerm, refHashes, exceptIsOk]
  | triple a b c iha ihb ihc =>
    intro hwf st
    simp only [wellFormedEnc, Bool.and_eq_true] at hwf
    obtain ⟨⟨⟨hsa, hwa⟩, hpb⟩, hwc⟩ := hwf
    have hwb : wellFormedEnc b = true := by
      cases b <;> simp [encPredShapeOk] at hpb
      rfl
    constructor
    · intro hok
      obtain ⟨x, hx⟩ := (exceptIsOkIff _).mp hok
      obtain ⟨⟨u, hu⟩, ⟨v, hv⟩, ⟨w, hw⟩, _⟩ := decodeTripleInv st a b c x hx
      intro h hmem
      have hmem' : h ∈ refHashes a ++ refHashes b ++ refHashes c := hmem
      rw [List.mem_append, List.mem_append] at hmem'
      rcases hmem' with (hm | hm) | hm
      · exact (iha hwa st).mp ((exceptIsOkIff _).mpr ⟨u, hu⟩) h hm
      · exact (ihb hwb st).mp ((exceptIsOkIff _).mpr ⟨v, hv⟩) h hm
      · exact (ihc hwc st).mp ((exceptIsOkIff _).mpr ⟨w, hw⟩) h hm
    · intro hall
      have h1 : ∀ h ∈ refHashes a, (st h).isSome = true := fun h hm =>
        hall h (by exact List.mem_append.mpr (Or.inl (List.mem_append.mpr (Or.inl hm))))
      have h2 : ∀ h ∈ refHashes b, (st h).isSome = true := fun h hm =>
        hall h (by exact List.mem_append.mpr (Or.inl (List.mem_append.mpr (Or.inr hm))))
      have h3 : ∀ h ∈ refHashes c, (st h).isSome = true := fun h hm =>
        hall h (by exact List.mem_append.mpr (Or.inr hm))
      obtain ⟨u, hu⟩ := (exceptIsOkIff _).mp ((iha hwa st).mpr h1)
      obtain ⟨v, hv⟩ := (exceptIsOkIff _).mp ((ihb hwb st).mpr h2)
      obtain ⟨w, hw⟩ := (exceptIsOkIff _).mp ((ihc hwc st).mpr h3)
      exact (exceptIsOkIff _).mpr
        ⟨.triple u v w, decodeTripleOkOfComponents st a b c u v w hu hv hw hsa hpb⟩

/-- **C3 witness.** A well-formed nested-triple code whose hashes are
all present decodes successfully. -/
theorem decodeOkIffHashesPresent_witness :
    exceptIsOk (decodeTerm fullStore
      (.triple (.namedNode "http://example.com/s") (.namedNode "http://example.com/p")
        (.bigStringLiteral "a string value longer than sixteen bytes"))) = true :=
  (decodeOkIffHashesPresent _ (by decide) fullStore).mpr (by decide)

/-! ### Round trip of non-natively-encoded terms -/

/-- Decoding the encoding of a literal whose encoded form is not a
native variant, against a store holding the recorded strings, returns
the literal unchanged. -/
theorem decodeEncodeLiteral (l : RLiteral) (st : Store)
    (hwf : wellFormedRLiteral l = true)
    (hnn : isNativeVariant (encodeLiteral l) = false)
    (hst : ∀ p ∈ insertTermValues (.literal l) (encodeLiteral l), st p.1 = some p.2) :
    decodeTerm st (encodeLiteral l) = .ok (.literal l) := by
  cases l with
  | simple v =>
    have he : encodeLiteral (.simple v) = smallBigStringEncoding v := rfl
    rw [he] at hst ⊢
    unfold smallBigStringEncoding at hst ⊢
    cases h0 : smallStringTryFrom v with
    | some sv =>
      obtain rfl := smallStringTryFromEq h0
      simp only [h0] at hst ⊢
      simp [decodeTerm]
    | none =>
      simp only [h0] at hst ⊢
      have hv : st v = some v :=
        hst (strHashNew v, v) (by exact List.mem_singleton.mpr rfl)
      simp [decodeTerm, getRequiredStr, strHashNew, hv]
  | langTagged v lang =>
    have he : encodeLiteral (.langTagged v lang) = langStringEncoding v lang := rfl
    rw [he] at hst ⊢
    unfold langStringEncoding at hst ⊢
    cases h0 : smallStringTryFrom v with
    | some sv =>
      obtain rfl := smallStringTryFromEq h0
      simp only [h0] at hst ⊢
      cases h1 : smallStringTryFrom lang with
      | some sl =>
        obtain rfl := smallStringTryFromEq h1
        simp only [h1]
        simp [decodeTerm]
      | none =>
        simp only [h1] at hst ⊢
        have hl : st lang = some lang :=
          hst (strHashNew lang, lang) (by exact List.mem_singleton.mpr rfl)
        simp [decodeTerm, getRequiredStr, strHashNew, hl]
    | none =>
      simp only [h0] at hst ⊢
      cases h1 : smallStringTryFrom lang with
      | some sl =>
        obtain rfl := smallStringTryFromEq h1
        simp only [h1] at hst ⊢
        have hv : st v = some v :=
          hst (strHashNew v, v) (by exact List.mem_singleton.mpr rfl)
        simp [decodeTerm, getRequiredStr, strHashNew, hv]
      | none =>
        simp only [h1] at hst ⊢
        have hv : st v = some v :=
          hst (strHashNew v, v) (by exact List.mem_cons_self _ _)
        have hl : st lang = some lang :=
          hst (strHashNew lang, lang)
            (by exact List.mem_cons_of_mem _ (List.mem_singleton.mpr rfl))
        simp [decodeTerm, getRequiredStr, strHashNew, hv, hl]
  | typed v dt =>
    have hwf' : dt ≠ xsdString := by simpa [wellFormedRLiteral] using hwf
    cases he : literalNativeEncoding (.typed v dt) with
    | some e =>
      have henc : encodeLiteral (.typed v dt) = e := by
        unfold encodeLiteral; rw [he]
      by_cases hlang : dt = rdfLangString
      · subst hlang
        rw [show literalNativeEncoding (.typed v rdfLangString) = none from rfl] at he
        cases he
      · have hnat := nativeEncodingIsNative (.typed v dt) e hlang hwf' he
        rw [henc, hnat] at hnn
        cases hnn
    | none =>
      have henc : encodeLiteral (.typed v dt) = fallbackTypedLiteral v dt := by
        unfold encodeLiteral; rw [he]; rfl
      rw [henc] at hst ⊢
      unfold fallbackTypedLiteral at hst ⊢
      cases h0 : smallStringTryFrom v with
      | some sv =>
        obtain rfl := smallStringTryFromEq h0
        simp only [h0] at hst ⊢
        have hd : st dt = some dt :=
          hst (strHashNew dt, dt) (by exact List.mem_singleton.mpr rfl)
        simp [decodeTerm, getRequiredStr, strHashNew, hd, mkTypedLiteral, hwf']
      | none =>
        simp only [h0] at hst ⊢
        have hv : st v = some v :=
          hst (strHashNew v, v) (by exact List.mem_cons_self _ _)
        have hd : st dt = some dt :=
          hst (strHashNew dt, dt)
            (by exact List.mem_cons_of_mem _ (List.mem_singleton.mpr rfl))
        simp [decodeTerm, getRequiredStr, strHashNew, hv, hd, mkTypedLiteral, hwf']

/-- The encoding of a non-literal term is an acceptable encoded
subject. -/
theorem encSubjectShapeOkOfTermShape (s : RTerm)
    (hs : (match s with
           | .namedNode _ => true
           | .blankNode _ => true
           | .triple _ _ _ => true
           | .literal _ => false) = true) :
    encSubjectShapeOk (encodeTerm s) = true := by
  cases s with
  | namedNode i => rfl
  | blankNode b =>
    cases b with
    | numerical id => rfl
    | named label =>
      show encSubjectShapeOk (encodeBlankNode (.named label)) = true
      unfold encodeBlankNode
      cases h0 : smallStringTryFrom label <;> simp [h0, encSubjectShapeOk]
  | literal l => simp at hs
  | triple a b c => rfl

/-- **C1 (amended).** `decode (encode t) = t` — with the lexical form
and datatype of every literal intact — holds for every well-formed term
in which no literal is natively encoded (IRIs, blank nodes, string and
language-tagged literals, unknown-datatype literals, and literals whose
native parse fails, nested arbitrarily in RDF-star triples), read
against any store holding the strings recorded while encoding.
Natively-parsed literals are excluded: they decode to the canonical
literal of the parsed value (see the counterexample). -/
theorem decodeEncodeRoundTrip :
    ∀ t : RTerm, wellFormedRTerm t = true → literalsNonNative t = true →
      ∀ st : Store, (∀ p ∈ insertTermValues t (encodeTerm t), st p.1 = some p.2) →
      decodeTerm st (encodeTerm t) = .ok t := by
  intro t
  induction t with
  | namedNode iri =>
    intro _ _ st hst
    have hv : st iri = some iri :=
      hst (strHashNew iri, iri) (by exact List.mem_singleton.mpr rfl)
    simp [encodeTerm, decodeTerm, getRequiredStr, strHashNew, hv]
  | blankNode b =>
    intro _ _ st hst
    cases b with
    | numerical id => simp [encodeTerm, encodeBlankNode, decodeTerm]
    | named label =>
      show decodeTerm st (encodeBlankNode (.named label)) = _
      unfold encodeBlankNode
      cases h0 : smallStringTryFrom label with
      | some sl =>
        obtain rfl := smallStringTryFromEq h0
        simp [h0, decodeTerm]
      | none =>
        have hv : st label = some label :=
          hst (strHashNew label, label) (by
            show _ ∈ insertTermValues (.blankNode (.named label))
              (encodeBlankNode (.named label))
            unfold encodeBlankNode
            simp only [h0]
            exact List.mem_singleton.mpr rfl)
        simp [h0, decodeTerm, getRequiredStr, strHashNew, hv]
  | literal l =>
    intro hwf hnn st hst
    exact decodeEncodeLiteral l st (by simpa [wellFormedRTerm] using hwf)
      (by simpa [literalsNonNative] using hnn) hst
  | triple s p o ihs ihp iho =>
    intro hwf hnn st hst
    simp only [wellFormedRTerm, Bool.and_eq_true] at hwf
    obtain ⟨⟨⟨hsshape, hws⟩, hpshape⟩, hwo⟩ := hwf
    simp only [literalsNonNative, Bool.and_eq_true] at hnn
    obtain ⟨⟨hns, hnp⟩, hno⟩ := hnn
    have hsts : ∀ q ∈ insertTermValues s (encodeTerm s), st q.1 = some q.2 := fun q hq =>
      hst q (by exact List.mem_append.mpr (Or.inl (List.mem_append.mpr (Or.inl hq))))
    have hstp : ∀ q ∈ insertTermValues p (encodeTerm p), st q.1 = some q.2 := fun q hq =>
      hst q (by exact List.mem_append.mpr (Or.inl (List.mem_append.mpr (Or.inr hq))))
    have hsto : ∀ q ∈ insertTermValues o (encodeTerm o), st q.1 = some q.2 := fun q hq =>
      hst q (by exact List.mem_append.mpr (Or.inr hq))
    have hds := ihs hws hns st hsts
    have hdo := iho hwo hno st hsto
    cases p with
    | namedNode ip =>
      have hdp := ihp rfl rfl st hstp
      exact decodeTripleOkOfComponents st (encodeTerm s) (encodeTerm (.namedNode ip))
        (encodeTerm o) s (.namedNode ip) o hds hdp hdo
        (encSubjectShapeOkOfTermShape s hsshape) rfl
    | blankNode bb => simp at hpshape
    | literal ll => simp at hpshape
    | triple a b c => simp at hpshape

/-- **C1 counterexample.** The round trip does not preserve the lexical
form of natively-parsed literals: `"1"^^xsd:boolean` encodes to the
native `BooleanLiteral` and decodes to the canonical
`"true"^^xsd:boolean` (no strings are recorded while encoding it, so any
store qualifies). -/
theorem roundTripCanonicalizesBoolean :
    encodeTerm (.literal (.typed "1" xsdBoolean)) = .booleanLiteral true
    ∧ insertTermValues (.literal (.typed "1" xsdBoolean))
        (encodeTerm (.literal (.typed "1" xsdBoolean))) = []
    ∧ decodeTerm fullStore (encodeTerm (.literal (.typed "1" xsdBoolean)))
        = .ok (.literal (.typed "true" xsdBoolean))
    ∧ RLiteral.typed "true" xsdBoolean ≠ .typed "1" xsdBoolean :=
  ⟨by decide, by decide, rfl, by decide⟩

/-- **C1 witness.** The round trip on a concrete RDF-star triple with a
malformed-numeric literal (`"nana"` fails the `f64` parse and is kept as
a typed string). -/
theorem decodeEncodeRoundTrip_witness :
    decodeTerm fullStore (encodeTerm (.triple (.namedNode "http://example.com/s")
        (.namedNode "http://example.com/p") (.literal (.typed "nana" xsdDouble))))
      = .ok (.triple (.namedNode "http://example.com/s") (.namedNode "http://example.com/p")
          (.literal (.typed "nana" xsdDouble))) :=
  decodeEncodeRoundTrip _ (by decide) (by decide) fullStore (by decide)

/-! ### Consistency of equality and hashing -/

set_option maxHeartbeats 3200000 in
/-- **C10 (amended).** `a == b` implies `hash a == hash b` for all
encoded terms whose Float/Double payloads are neither NaN nor a signed
zero — the payloads for which IEEE-equal values always share one bit
pattern.  (For NaN payloads with different bit patterns, and for
`+0.0`/`-0.0`, equal terms hash differently; see the
counterexample.) -/
theorem eqImpliesHashAwayFromSpecialFloats :
    ∀ a b : EncodedTerm, encEq a b = true → noSpecialFloat a = true →
      hashStream a = hashStream b := by
  intro a
  induction a with
  | defaultGraph =>
    intro b hEq hSp
    cases b <;> simp only [encEq] at hEq
    all_goals try exact absurd hEq Bool.false_ne_true
    all_goals simp_all [hashStream]
  | namedNode x =>
    intro b hEq hSp
    cases b <;> simp only [encEq] at hEq
    all_goals try exact absurd hEq Bool.false_ne_true
    all_goals simp_all [hashStream]
  | numericalBlankNode x =>
    intro b hEq hSp
    cases b <;> simp only [encEq] at hEq
    all_goals try exact absurd hEq Bool.false_ne_true
    all_goals simp_all [hashStream]
  | smallBlankNode x =>
    intro b hEq hSp
    cases b <;> simp only [encEq] at hEq
    all_goals try exact absurd hEq Bool.false_ne_true
    all_goals simp_all [hashStream]
  | bigBlankNode x =>
    intro b hEq hSp
    cases b <;> simp only [encEq] at hEq
    all_goals try exact absurd hEq Bool.false_ne_true
    all_goals simp_all [hashStream]
  | smallStringLiteral x =>
    intro b hEq hSp
    cases b <;> simp only [encEq] at hEq
    all_goals try exact absurd hEq Bool.false_ne_true
    all_goals simp_all [hashStream]
  | bigStringLiteral x =>
    intro b hEq hSp
    cases b <;> simp only [encEq] at hEq
    all_goals try exact absurd hEq Bool.false_ne_true
    all_goals simp_all [hashStream]
  | smallSmallLangStringLiteral x y =>
    intro b hEq hSp
    cases b <;> simp only [encEq] at hEq
    all_goals try exact absurd hEq Bool.false_ne_true
    all_goals simp_all [hashStream]
  | smallBigLangStringLiteral x y =>
    intro b hEq hSp
    cases b <;> simp only [encEq] at hEq
    all_goals try exact absurd hEq Bool.false_ne_true
    all_goals simp_all [hashStream]
  | bigSmallLangStringLiteral x y =>
    intro b hEq hSp
    cases b <;> simp only [encEq] at hEq
    all_goals try exact absurd hEq Bool.false_ne_true
    all_goals simp_all [hashStream]
  | bigBigLangStringLiteral x y =>
    intro b hEq hSp
    cases b <;> simp only [encEq] at hEq
    all_goals try exact absurd hEq Bool.false_ne_true
    all_goals simp_all [hashStream]
  | smallTypedLiteral x y =>
    intro b hEq hSp
    cases b <;> simp only [encEq] at hEq
    all_goals try exact absurd hEq Bool.false_ne_true
    all_goals simp_all [hashStream]
  | bigTypedLiteral x y =>
    intro b hEq hSp
    cases b <;> simp only [encEq] at hEq
    all_goals try exact absurd hEq Bool.false_ne_true
    all_goals simp_all [hashStream]
  | booleanLiteral x =>
    intro b hEq hSp
    cases b <;> simp only [encEq] at hEq
    all_goals try exact absurd hEq Bool.false_ne_true
    all_goals simp_all [hashStream]
  | integerLiteral x =>
    intro b hEq hSp
    cases b <;> simp only [encEq] at hEq
    all_goals try exact absurd hEq Bool.false_ne_true
    all_goals simp_all [hashStream]
  | decimalLiteral x =>
    intro b hEq hSp
    cases b <;> simp only [encEq] at hEq
    all_goals try exact absurd hEq Bool.false_ne_true
    all_goals simp_all [hashStream]
  | dateTimeLiteral x =>
    intro b hEq hSp
    cases b <;> simp only [encEq] at hEq
    all_goals try exact absurd hEq Bool.false_ne_true
    all_goals simp_all [hashStream]
  | timeLiteral x =>
    intro b hEq hSp
    cases b <;> simp only [encEq] at hEq
    all_goals try exact absurd hEq Bool.false_ne_true
    all_goals simp_all [hashStream]
  | dateLiteral x =>
    intro b hEq hSp
    cases b <;> simp only [encEq] at hEq
    all_goals try exact absurd hEq Bool.false_ne_true
    all_goals simp_all [hashStream]
  | gYearMonthLiteral x =>
    intro b hEq hSp
    cases b <;> simp only [encEq] at hEq
    all_goals try exact absurd hEq Bool.false_ne_true
    all_goals simp_all [hashStream]
  | gYearLiteral x =>
    intro b hEq hSp
    cases b <;> simp only [encEq] at hEq
    all_goals try exact absurd hEq Bool.false_ne_true
    all_goals simp_all [hashStream]
  | gMonthDayLiteral x =>
    intro b hEq hSp
    cases b <;> simp only [encEq] at hEq
    all_goals try exact absurd hEq Bool.false_ne_true
    all_goals simp_all [hashStream]
  | gDayLiteral x =>
    intro b hEq hSp
    cases b <;> simp only [encEq] at hEq
    all_goals try exact absurd hEq Bool.false_ne_true
    all_goals simp_all [hashStream]
  | gMonthLiteral x =>
    intro b hEq hSp
    cases b <;> simp only [encEq] at hEq
    all_goals try exact absurd hEq Bool.false_ne_true
    all_goals simp_all [hashStream]
  | durationLiteral x =>
    intro b hEq hSp
    cases b <;> simp only [encEq] at hEq
    all_goals try exact absurd hEq Bool.false_ne_true
    all_goals simp_all [hashStream]
  | yearMonthDurationLiteral x =>
    intro b hEq hSp
    cases b <;> simp only [encEq] at hEq
    all_goals try exact absurd hEq Bool.false_ne_true
    all_goals simp_all [hashStream]
  | dayTimeDurationLiteral x =>
    intro b hEq hSp
    cases b <;> simp only [encEq] at hEq
    all_goals try exact absurd hEq Bool.false_ne_true
    all_goals simp_all [hashStream]
  | floatLiteral f =>
    intro b hEq hSp
    cases b <;> simp only [encEq] at hEq
    all_goals try exact absurd hEq Bool.false_ne_true
    case floatLiteral g =>
      simp only [noSpecialFloat, Bool.and_eq_true, Bool.not_eq_true'] at hSp
      obtain ⟨hn, hz⟩ := hSp
      rw [hn] at hEq
      rw [if_neg Bool.false_ne_true] at hEq
      simp only [f32IeeeEq, hz, Bool.false_and, Bool.or_false, Bool.and_eq_true,
        beq_iff_eq] at hEq
      simp [hashStream, hEq.2]
  | doubleLiteral f =>
    intro b hEq hSp
    cases b <;> simp only [encEq] at hEq
    all_goals try exact absurd hEq Bool.false_ne_true
    case doubleLiteral g =>
      simp only [noSpecialFloat, Bool.and_eq_true, Bool.not_eq_true'] at hSp
      obtain ⟨hn, hz⟩ := hSp
      rw [hn] at hEq
      rw [if_neg Bool.false_ne_true] at hEq
      simp only [f64IeeeEq, hz, Bool.false_and, Bool.or_false, Bool.and_eq_true,
        beq_iff_eq] at hEq
      simp [hashStream, hEq.2]
  | triple s p o ihs ihp iho =>
    intro b hEq hSp
    cases b <;> simp only [encEq] at hEq
    all_goals try exact absurd hEq Bool.false_ne_true
    case triple s2 p2 o2 =>
      simp only [Bool.and_eq_true] at hEq
      obtain ⟨⟨h1, h2⟩, h3⟩ := hEq
      simp only [noSpecialFloat, Bool.and_eq_true] at hSp
      obtain ⟨⟨n1, n2⟩, n3⟩ := hSp
      simp only [hashStream, ihs _ h1 n1, ihp _ h2 n2, iho _ h3 n3]

/-- **C10 witness.** Consistency applied to two equal non-special
double literals. -/
theorem eqImpliesHashAwayFromSpecialFloats_witness :
    hashStream (.doubleLiteral ⟨0x3ff0000000000000⟩)
      = hashStream (.doubleLiteral ⟨0x3ff0000000000000⟩) :=
  eqImpliesHashAwayFromSpecialFloats (.doubleLiteral ⟨0x3ff0000000000000⟩)
    (.doubleLiteral ⟨0x3ff0000000000000⟩) (by decide) (by decide)

/-! ### DELETE/INSERT WHERE template semantics -/

/-- A template whose subject is an unbound variable converts to `none`
(the instance is skipped), leaving the blank-node state untouched. -/
theorem convertQuadSkipUnboundSubject (ds : Store) (vars : List String)
    (tup : EncodedTuple) (bs : BnodeState) (q : QuadPat) (v : String)
    (hs : q.subject = .var v) (hl : lookupVariable v vars tup = none) :
    convertQuadPattern ds vars tup bs q = .ok (none, bs) := by
  unfold convertQuadPattern
  rw [hs]
  simp [convertTermOrVar, hl]

/-- A template whose subject position is a literal converts to `none`
(the instance is skipped), not an error. -/
theorem convertQuadSkipLiteralSubject (ds : Store) (vars : List String)
    (tup : EncodedTuple) (bs : BnodeState) (q : QuadPat) (l : RLiteral)
    (hs : q.subject = .literal l) :
    convertQuadPattern ds vars tup bs q = .ok (none, bs) := by
  unfold convertQuadPattern
  rw [hs]
  simp [convertTermOrVar]

/-- A subject variable bound to a value that decodes to a literal also
converts the template to `none` (skip). -/
theorem convertQuadSkipLiteralBoundSubject (ds : Store) (vars : List String)
    (tup : EncodedTuple) (bs : BnodeState) (q : QuadPat) (v : String)
    (enc : EncodedTerm) (l : RLiteral)
    (hs : q.subject = .var v) (hl : lookupVariable v vars tup = some enc)
    (hdec : decodeTerm ds enc = .ok (.literal l)) :
    convertQuadPattern ds vars tup bs q = .ok (none, bs) := by
  unfold convertQuadPattern
  rw [hs]
  simp [convertTermOrVar, hl, hdec, Except.map]

/-- An unbound predicate variable skips the template, once the subject
position has converted to a non-literal value. -/
theorem convertQuadSkipUnboundPredicate (ds : Store) (vars : List String)
    (tup : EncodedTuple) (bs bs1 : BnodeState) (q : QuadPat) (v : String) (s' : RTerm)
    (hsub : convertTermOrVar ds vars tup bs q.subject = .ok (some s', bs1))
    (hnl : ∀ l, s' ≠ RTerm.literal l)
    (hp : q.predicate = .var v) (hl : lookupVariable v vars tup = none) :
    convertQuadPattern ds vars tup bs q = .ok (none, bs1) := by
  unfold convertQuadPattern
  rw [hsub, hp]
  cases s' with
  | literal l => exact absurd rfl (hnl l)
  | namedNode i => simp [convertNamedNodeOrVar, hl]
  | blankNode b => simp [convertNamedNodeOrVar, hl]
  | triple a b c => simp [convertNamedNodeOrVar, hl]

/-- An unbound object variable skips the template, once subject and
predicate have converted. -/
theorem convertQuadSkipUnboundObject (ds : Store) (vars : List String)
    (tup : EncodedTuple) (bs bs1 : BnodeState) (q : QuadPat) (v : String)
    (s' : RTerm) (p' : String)
    (hsub : convertTermOrVar ds vars tup bs q.subject = .ok (some s', bs1))
    (hnl : ∀ l, s' ≠ RTerm.literal l)
    (hpred : convertNamedNodeOrVar ds vars tup q.predicate = .ok (some p'))
    (ho : q.object = .var v) (hl : lookupVariable v vars tup = none) :
    convertQuadPattern ds vars tup bs q = .ok (none, bs1) := by
  unfold convertQuadPattern
  rw [hsub, ho]
  cases s' with
  | literal l => exact absurd rfl (hnl l)
  | namedNode i => simp [hpred, convertTermOrVar, hl]
  | blankNode b => simp [hpred, convertTermOrVar, hl]
  | triple a b c => simp [hpred, convertTermOrVar, hl]

/-- An unbound graph-name variable skips the template, once subject,
predicate and object have converted. -/
theorem convertQuadSkipUnboundGraph (ds : Store) (vars : List String)
    (tup : EncodedTuple) (bs bs1 bs2 : BnodeState) (q : QuadPat) (v : String)
    (s' o' : RTerm) (p' : String)
    (hsub : convertTermOrVar ds vars tup bs q.subject = .ok (some s', bs1))
    (hnl : ∀ l, s' ≠ RTerm.literal l)
    (hpred : convertNamedNodeOrVar ds vars tup q.predicate = .ok (some p'))
    (hobj : convertTermOrVar ds vars tup bs1 q.object = .ok (some o', bs2))
    (hg : q.graphName = .var v) (hl : lookupVariable v vars tup = none) :
    convertQuadPattern ds vars tup bs q = .ok (none, bs2) := by
  unfold convertQuadPattern
  rw [hsub, hg]
  cases s' with
  | literal l => exact absurd rfl (hnl l)
  | namedNode i => simp [hpred, hobj, convertGraphNameOrVar, hl]
  | blankNode b => simp [hpred, hobj, convertGraphNameOrVar, hl]
  | triple a b c => simp [hpred, hobj, convertGraphNameOrVar, hl]

/-- A row whose sole INSERT template has a literal subject leaves the
quad set unchanged (the template is skipped, no error). -/
theorem processRowSkipsLiteralSubject (ds : Store) (vars : List String)
    (tup : EncodedTuple) (q : QuadPat) (l : RLiteral) (store : List OxQuad)
    (bs : BnodeState) (hs : q.subject = .literal l) :
    processRow ds vars tup [] [q] store bs = .ok (store, bs) := by
  unfold processRow
  simp [List.foldlM, convertQuadSkipLiteralSubject ds vars tup bs q l hs]

/-- The solution loop resets the blank-node map (keeping the fresh-id
source) before every subsequent row. -/
theorem evalRowsClearsBnodes (ds : Store) (vars : List String)
    (del : List GroundQuadPat) (ins : List QuadPat) (tup : EncodedTuple)
    (rows : List EncodedTuple) (store : List OxQuad) (bs : BnodeState) :
    evalDeleteInsertRows ds vars del ins (tup :: rows) store bs
      = match processRow ds vars tup del ins store bs with
        | .error e => .error e
        | .ok r => evalDeleteInsertRows ds vars del ins rows r.1 ⟨[], r.2.counter⟩ := by
  cases hp : processRow ds vars tup del ins store bs with
  | error e => simp [evalDeleteInsertRows, hp]
  | ok r =>
    cases r with
    | mk store1 bs1 => simp [evalDeleteInsertRows, hp]

/-- A blank-node label not yet in the map allocates the current fresh
id and records it. -/
theorem convertBlankNodeFresh (label : String) (bs : BnodeState)
    (h : bs.map.lookup label = none) :
    convertBlankNode label bs
      = (.numerical bs.counter, ⟨(label, bs.counter) :: bs.map, bs.counter + 1⟩) := by
  unfold convertBlankNode
  rw [h]

/-- Within one row, a second occurrence of the same blank-node label
reuses the allocated node without allocating again. -/
theorem convertBlankNodeStable (label : String) (bs bs' : BnodeState) (n : RBlankNode)
    (h : convertBlankNode label bs = (n, bs')) :
    convertBlankNode label bs' = (n, bs') := by
  unfold convertBlankNode at h ⊢
  cases h0 : bs.map.lookup label with
  | some id =>
    rw [h0] at h
    cases h
    rw [h0]
  | none =>
    rw [h0] at h
    cases h
    simp [List.lookup]

/-- The injection of a ground term pattern mentions no blank node. -/
theorem groundTermPatNoBlankNode (g : GroundTermPat) :
    termPatHasBlankNode g.toTermPat = false := by
  induction g with
  | namedNode i => rfl
  | literal l => rfl
  | var v => rfl
  | triple a b c iha ihc =>
    simp [GroundTermPat.toTermPat, termPatHasBlankNode, iha, ihc]

/-- DELETE templates (ground quad patterns) contain no blank nodes. -/
theorem groundQuadPatNoBlankNode (g : GroundQuadPat) :
    quadPatHasBlankNode g.toQuadPat = false := by
  simp [quadPatHasBlankNode, GroundQuadPat.toQuadPat, groundTermPatNoBlankNode]

/-- **C4 counterexample.** A position that yields no value is not
always skipped: with subject `<http://example.com/s>`, predicate
variable `?p` bound to a literal and UNBOUND object variable `?o`
(first conjunct), `convert_quad_pattern` raises the
`decode_named_node` literal error (update.rs 380, 432-434) instead of
returning `Ok(None)`. -/
theorem literalBoundPredicateErrorsNotSkips :
    lookupVariable "o" ["p"] [some (.booleanLiteral true)] = none
    ∧ convertQuadPattern fullStore ["p"] [some (.booleanLiteral true)] ⟨[], 0⟩
        ⟨.namedNode "http://example.com/s", .var "p", .var "o", .defaultGraph⟩
      = .error .literalInsteadOfNamedNode := ⟨rfl, rfl⟩

/-- **C4 (amended).** DELETE/INSERT WHERE template semantics, per
position: a template quad is skipped (`Ok(None)`), not an error, when
(1) its subject is an unbound variable, (2) its subject is a literal,
(3) its subject variable is bound to a value decoding to a literal,
(4) its predicate is an unbound variable — provided the subject
converted to a non-literal value, (5) its object is an unbound
variable — provided subject and predicate converted, or (6) its graph
name is an unbound variable — provided subject, predicate and object
converted (the provisos are necessary: an error in an earlier position,
e.g. a literal-bound predicate variable, propagates instead, see the
counterexample); (7) a row whose sole template is skipped leaves the
quad set unchanged; (8) the blank-node map is reset (fresh-id source
kept) before each subsequent solution row; (9) an unseen blank-node
label allocates a fresh node once and (10) later occurrences in the
same row reuse it; (11) DELETE templates are ground patterns containing
no blank nodes. -/
theorem deleteInsertTemplateSemantics :
    (∀ (ds : Store) (vars : List String) (tup : EncodedTuple) (bs : BnodeState)
        (q : QuadPat) (v : String), q.subject = .var v →
        lookupVariable v vars tup = none →
        convertQuadPattern ds vars tup bs q = .ok (none, bs))
    ∧ (∀ (ds : Store) (vars : List String) (tup : EncodedTuple) (bs : BnodeState)
        (q : QuadPat) (l : RLiteral), q.subject = .literal l →
        convertQuadPattern ds vars tup bs q = .ok (none, bs))
    ∧ (∀ (ds : Store) (vars : List String) (tup : EncodedTuple) (bs : BnodeState)
        (q : QuadPat) (v : String) (enc : EncodedTerm) (l : RLiteral),
        q.subject = .var v → lookupVariable v vars tup = some enc →
        decodeTerm ds enc = .ok (.literal l) →
        convertQuadPattern ds vars tup bs q = .ok (none, bs))
    ∧ (∀ (ds : Store) (vars : List String) (tup : EncodedTuple) (bs bs1 : BnodeState)
        (q : QuadPat) (v : String) (s' : RTerm),
        convertTermOrVar ds vars tup bs q.subject = .ok (some s', bs1) →
        (∀ l, s' ≠ RTerm.literal l) → q.predicate = .var v →
        lookupVariable v vars tup = none →
        convertQuadPattern ds vars tup bs q = .ok (none, bs1))
    ∧ (∀ (ds : Store) (vars : List String) (tup : EncodedTuple) (bs bs1 : BnodeState)
        (q : QuadPat) (v : String) (s' : RTerm) (p' : String),
        convertTermOrVar ds vars tup bs q.subject = .ok (some s', bs1) →
        (∀ l, s' ≠ RTerm.literal l) →
        convertNamedNodeOrVar ds vars tup q.predicate = .ok (some p') →
        q.object = .var v → lookupVariable v vars tup = none →
        convertQuadPattern ds vars tup bs q = .ok (none, bs1))
    ∧ (∀ (ds : Store) (vars : List String) (tup : EncodedTuple) (bs bs1 bs2 : BnodeState)
        (q : QuadPat) (v : String) (s' o' : RTerm) (p' : String),
        convertTermOrVar ds vars tup bs q.subject = .ok (some s', bs1) →
        (∀ l, s' ≠ RTerm.literal l) →
        convertNamedNodeOrVar ds vars tup q.predicate = .ok (some p') →
        convertTermOrVar ds vars tup bs1 q.object = .ok (some o', bs2) →
        q.graphName = .var v → lookupVariable v vars tup = none →
        convertQuadPattern ds vars tup bs q = .ok (none, bs2))
    ∧ (∀ (ds : Store) (vars : List String) (tup : EncodedTuple) (q : QuadPat)
        (l : RLiteral) (store : List OxQuad) (bs : BnodeState), q.subject = .literal l →
        processRow ds vars tup [] [q] store bs = .ok (store, bs))
    ∧ (∀ (ds : Store) (vars : List String) (del : List GroundQuadPat)
        (ins : List QuadPat) (tup : EncodedTuple) (rows : List EncodedTuple)
        (store : List OxQuad) (bs : BnodeState),
        evalDeleteInsertRows ds vars del ins (tup :: rows) store bs
          = match processRow ds vars tup del ins store bs with
            | .error e => .error e
            | .ok r => evalDeleteInsertRows ds vars del ins rows r.1 ⟨[], r.2.counter⟩)
    ∧ (∀ (label : String) (bs : BnodeState), bs.map.lookup label = none →
        convertBlankNode label bs
          = (.numerical bs.counter, ⟨(label, bs.counter) :: bs.map, bs.counter + 1⟩))
    ∧ (∀ (label : String) (bs bs' : BnodeState) (n : RBlankNode),
        convertBlankNode label bs = (n, bs') → convertBlankNode label bs' = (n, bs'))
    ∧ (∀ g : GroundQuadPat, quadPatHasBlankNode g.toQuadPat = false) :=
  ⟨convertQuadSkipUnboundSubject,
   convertQuadSkipLiteralSubject,
   convertQuadSkipLiteralBoundSubject,
   convertQuadSkipUnboundPredicate,
   convertQuadSkipUnboundObject,
   convertQuadSkipUnboundGraph,
   fun ds vars tup q l store bs hs => processRowSkipsLiteralSubject ds vars tup q l store bs hs,
   evalRowsClearsBnodes,
   convertBlankNodeFresh,
   convertBlankNodeStable,
   groundQuadPatNoBlankNode⟩

/-- **C4 witness.** A template whose subject and predicate convert but
whose object variable is unbound is skipped on a concrete input. -/
theorem deleteInsertTemplateSemantics_witness :
    convertQuadPattern fullStore [] [] ⟨[], 0⟩
        ⟨.namedNode "http://example.com/s", .namedNode "http://example.com/p",
         .var "o", .defaultGraph⟩
      = .ok (none, ⟨[], 0⟩) :=
  deleteInsertTemplateSemantics.2.2.2.2.1 fullStore [] [] ⟨[], 0⟩ ⟨[], 0⟩ _ "o"
    (.namedNode "http://example.com/s") "http://example.com/p" rfl
    (fun _ h => RTerm.noConfusion h) rfl rfl rfl

end Oxigraph
